import Mathlib

/-!
Verification development for the incremental chat-message parser
(`common/chat-parser.cpp`): a shallow embedding of its data model and
operations over `List Char`, together with theorems settling the frozen
claims about the specification.

Modelling conventions:

* C++ `std::string` is modelled as `List Char`; byte positions are `Nat`.
* `std::string::find` is modelled by `findSub` (smallest index at or after
  the start position where the pattern occurs in full).
* The external JSON library (nlohmann) is modelled at the value level by the
  inductive type `Json`; `dump` followed by `parse` on the emitted argument
  texts is the identity at this level, so functions that in C++ emit JSON
  text that is immediately re-parsed are modelled as producing the `Json`
  value denoted by that text.  Numbers are carried by their serialized text
  (`Json.numLit`).
* External collaborators that the spec declares out of scope (the partial
  JSON parser, `std::stod`-based float parsing, full JSON text parsing) are
  taken as function parameters of the operations that consume them.
* C++ exceptions are modelled with `Except`; a function that can throw
  returns its (possibly mutated) state alongside the `Except` result.
-/

/-- C locale `isspace`: space, tab, newline, vertical tab, form feed,
carriage return. -/
def isspaceB (c : Char) : Bool :=
  c = ' ' || c = '\t' || c = '\n' || c = '\x0b' || c = '\x0c' || c = '\r'

/-- The whitespace set used by `trim_whitespace` in the source:
exactly the four characters of `" \t\n\r"`. -/
def isTrimWs (c : Char) : Bool :=
  c = ' ' || c = '\t' || c = '\n' || c = '\r'

/-- Scan `s` from logical index `i`, returning the first index whose suffix
starts with `pat`. -/
def findSubAux (pat : List Char) : List Char → Nat → Option Nat
  | [], i => if pat.isEmpty then some i else none
  | c :: rest, i =>
    if pat.isPrefixOf (c :: rest) then some i else findSubAux pat rest (i + 1)

/-- Model of `std::string::find(pat, start)`: smallest index `i ≥ start` such
that `pat` occurs in `hay` at `i` (in full); `none` models `npos`. -/
def findSub (hay pat : List Char) (start : Nat) : Option Nat :=
  if start ≤ hay.length then findSubAux pat (hay.drop start) start else none

theorem findSubAux_ge {pat l : List Char} {i j : Nat}
    (h : findSubAux pat l i = some j) : i ≤ j := by
  induction l generalizing i with
  | nil =>
    simp only [findSubAux] at h
    split at h
    · simp at h; omega
    · simp at h
  | cons c rest ih =>
    simp only [findSubAux] at h
    split at h
    · simp at h; omega
    · have := ih h; omega

theorem findSub_ge {hay pat : List Char} {s j : Nat}
    (h : findSub hay pat s = some j) : s ≤ j := by
  unfold findSub at h
  split at h
  · exact findSubAux_ge h
  · simp at h

theorem findSubAux_matchesAt {pat l : List Char} {i j : Nat}
    (h : findSubAux pat l i = some j) : pat.isPrefixOf (l.drop (j - i)) := by
  induction l generalizing i with
  | nil =>
    simp only [findSubAux] at h
    split at h
    · rename_i he
      simp only [List.isEmpty_iff] at he
      subst he
      simp [List.isPrefixOf]
    · simp at h
  | cons c rest ih =>
    simp only [findSubAux] at h
    split at h
    · rename_i hp
      simp at h
      subst h
      simpa using hp
    · have hj := findSubAux_ge h
      have := ih h
      have hd : (c :: rest).drop (j - i) = rest.drop (j - (i + 1)) := by
        have : j - i = (j - (i + 1)) + 1 := by omega
        simp [this]
      rw [hd]
      exact this

theorem findSub_matchesAt {hay pat : List Char} {s j : Nat}
    (h : findSub hay pat s = some j) : pat.isPrefixOf (hay.drop j) := by
  unfold findSub at h
  split at h
  · have hg := findSubAux_ge h
    have hp := findSubAux_matchesAt h
    rw [List.drop_drop] at hp
    have he : s + (j - s) = j := by omega
    rwa [he] at hp
  · simp at h

theorem findSubAux_le {pat l : List Char} {i j : Nat}
    (h : findSubAux pat l i = some j) : j ≤ i + l.length := by
  induction l generalizing i with
  | nil =>
    simp only [findSubAux] at h
    split at h
    · simp at h; omega
    · simp at h
  | cons c rest ih =>
    simp only [findSubAux] at h
    split at h
    · simp at h; simp; omega
    · have := ih h; simp; omega

theorem isPrefixOf_len_le {α : Type} [BEq α] {p l : List α}
    (h : p.isPrefixOf l = true) : p.length ≤ l.length := by
  induction p generalizing l with
  | nil => simp
  | cons c cs ih =>
    cases l with
    | nil => simp [List.isPrefixOf] at h
    | cons b bs =>
      simp only [List.isPrefixOf, Bool.and_eq_true] at h
      have := ih h.2
      simp only [List.length_cons]
      omega

theorem findSub_le_length {hay pat : List Char} {s j : Nat}
    (h : findSub hay pat s = some j) : j + pat.length ≤ hay.length := by
  have hj : j ≤ hay.length := by
    unfold findSub at h
    split at h
    · have := findSubAux_le h
      simp only [List.length_drop] at this
      omega
    · simp at h
  have hp := findSub_matchesAt h
  have hle : pat.length ≤ (hay.drop j).length := isPrefixOf_len_le hp
  simp only [List.length_drop] at hle
  omega

/-- Model of the `while (i < bound && isspace(text[i])) i++` scan used when
skipping whitespace after `=` in `find_xml_tag`. -/
def skipWsAux (text : List Char) (bound : Nat) : Nat → Nat → Nat
  | 0, i => i
  | fuel + 1, i =>
    if i < bound && isspaceB (text.getD i ' ') then skipWsAux text bound fuel (i + 1)
    else i

def skipWs (text : List Char) (i bound : Nat) : Nat :=
  skipWsAux text bound (bound - i) i

/-- Model of the `while (aend > astart && isspace(text[aend-1])) aend--` scan
that trims trailing whitespace of an unquoted attribute. -/
def trimEndAux (text : List Char) (astart : Nat) : Nat → Nat → Nat
  | 0, aend => aend
  | fuel + 1, aend =>
    if astart < aend && isspaceB (text.getD (aend - 1) ' ') then
      trimEndAux text astart fuel (aend - 1)
    else aend

def trimEndIdx (text : List Char) (astart aend : Nat) : Nat :=
  trimEndAux text astart (aend - astart) aend

/-- Model of `trim_whitespace` from the source: strips the characters of `" \t\n\r"`
from both ends (`find_first_not_of` / `find_last_not_of`). -/
def trim_whitespace (s : List Char) : List Char :=
  ((s.dropWhile isTrimWs).reverse.dropWhile isTrimWs).reverse

/-- JSON values at the level of the external nlohmann library
(`nlohmann::ordered_json`).  Object fields keep insertion order.  Numbers are
represented by their serialized text. -/
inductive Json where
  | null : Json
  | boolVal : Bool → Json
  | numLit : List Char → Json
  | str : List Char → Json
  | arr : List Json → Json
  | obj : List (List Char × Json) → Json

/-- Model of `j.contains(key)`: true only for objects holding the key. -/
def jContains (j : Json) (key : List Char) : Bool :=
  match j with
  | Json.obj kvs => (kvs.find? (fun p => p.1 = key)).isSome
  | _ => false

/-- Model of `j[key]` on an object known to contain `key` (first occurrence). -/
def jGetD (j : Json) (key : List Char) : Json :=
  match j with
  | Json.obj kvs =>
    match kvs.find? (fun p => p.1 = key) with
    | some p => p.2
    | none => Json.null
  | _ => Json.null

def jLookup (j : Json) (key : List Char) : Option Json :=
  match j with
  | Json.obj kvs => (kvs.find? (fun p => p.1 = key)).map (fun p => p.2)
  | _ => none

/-- Model of `obj[key] = v` on nlohmann objects: replace in place if the key exists,
else append. -/
def jInsert (kvs : List (List Char × Json)) (key : List Char) (v : Json) :
    List (List Char × Json) :=
  if (kvs.find? (fun p => p.1 = key)).isSome then
    kvs.map (fun p => if p.1 = key then (key, v) else p)
  else kvs ++ [(key, v)]

def hexDigitChar (n : Nat) : Char :=
  if n < 10 then Char.ofNat (48 + n) else Char.ofNat (87 + n)

/-- One character of nlohmann's string escaping (`dump` with default
options): `"` and `\` are escaped, the common control characters use their
short forms, other control characters use `\u00XX`, everything else is kept
as is. -/
def escapeJsonChar (c : Char) : List Char :=
  if c = '"' then ['\\', '"']
  else if c = '\\' then ['\\', '\\']
  else if c = '\x08' then ['\\', 'b']
  else if c = '\x0c' then ['\\', 'f']
  else if c = '\n' then ['\\', 'n']
  else if c = '\r' then ['\\', 'r']
  else if c = '\t' then ['\\', 't']
  else if c.toNat < 32 then
    ['\\', 'u', '0', '0', hexDigitChar (c.toNat / 16), hexDigitChar (c.toNat % 16)]
  else [c]

def dumpStringChars (s : List Char) : List Char :=
  '"' :: s.foldr (fun c acc => escapeJsonChar c ++ acc) ['"']

mutual
/-- Model of `j.dump()`: compact serialization, no spaces, fields in insertion
order. -/
def dumpJson : Json → List Char
  | Json.null => 'n' :: 'u' :: 'l' :: 'l' :: []
  | Json.boolVal true => 't' :: 'r' :: 'u' :: 'e' :: []
  | Json.boolVal false => 'f' :: 'a' :: 'l' :: 's' :: 'e' :: []
  | Json.numLit s => s
  | Json.str s => dumpStringChars s
  | Json.arr xs => '[' :: dumpJsonArr xs ++ [']']
  | Json.obj kvs => Char.ofNat 123 :: dumpJsonObj kvs ++ [Char.ofNat 125]

def dumpJsonArr : List Json → List Char
  | [] => []
  | [x] => dumpJson x
  | x :: y :: rest => dumpJson x ++ ',' :: dumpJsonArr (y :: rest)

def dumpJsonObj : List (List Char × Json) → List Char
  | [] => []
  | [(k, v)] => dumpStringChars k ++ ':' :: dumpJson v
  | (k, v) :: p :: rest =>
    dumpStringChars k ++ ':' :: dumpJson v ++ ',' :: dumpJsonObj (p :: rest)
end

def digitsToNat (ds : List Char) : Nat :=
  ds.foldl (fun acc c => 10 * acc + (c.toNat - 48)) 0

/-- Model of `std::stoll` on base 10: skip leading whitespace, optional sign, at least
one decimal digit (trailing junk is ignored); out of `long long` range means
`std::out_of_range`, modelled by `none`. -/
def stollParse (s : List Char) : Option Int :=
  let s1 := s.dropWhile isspaceB
  let signed : Bool × List Char :=
    match s1 with
    | c :: rest => if c = '-' then (true, rest) else if c = '+' then (false, rest) else (false, s1)
    | [] => (false, [])
  let digits := signed.2.takeWhile Char.isDigit
  if digits.isEmpty then none
  else
    let v : Int := (if signed.1 then -1 else 1) * (digitsToNat digits : Int)
    if v > 2 ^ 63 - 1 ∨ v < -(2 ^ 63) then none else some v

/-- Model of `safe_parse_int` from the source: `std::stoll` through a 64-bit
intermediate, rejecting values outside the 32-bit signed range. -/
def safe_parse_int (s : List Char) : Option Int :=
  match stollParse s with
  | none => none
  | some v => if v > 2 ^ 31 - 1 ∨ v < -(2 ^ 31) then none else some v

/-- Model of `std::to_string` on the parsed int, as characters. -/
def intChars (v : Int) : List Char := (toString v).data

/-- Type-inference tail of `convert_qwen3_param_value` (the code after the
schema block): try a full JSON parse, then integer, then float, then boolean,
else a JSON-escaped string.  `jp` models `nlohmann::json::parse` (with
failure for the surrounding catch), `fp` models the `std::stod`-based
`safe_parse_float` composed with `std::to_string` (returning the printed
float text). -/
def inferParamValue (jp : List Char → Option Json) (fp : List Char → Option (List Char))
    (trimmed_value : List Char) : Json :=
  match jp trimmed_value with
  | some parsed => parsed
  | none =>
    match safe_parse_int trimmed_value with
    | some v => Json.numLit (intChars v)
    | none =>
      match fp trimmed_value with
      | some out => Json.numLit out
      | none =>
        if trimmed_value = "true".data ∨ trimmed_value = "false".data then
          Json.boolVal (trimmed_value = "true".data)
        else Json.str trimmed_value

/-- Model of `convert_qwen3_param_value` from the source, at the `Json` value level:
the result is the value denoted by the text the C++ function returns (the
caller immediately re-parses that text).  The `Except` error is the C++
exception path: extracting a non-string `"type"` field from the schema throws
when assigned to `std::string`. -/
def convert_qwen3_param_value (jp : List Char → Option Json)
    (fp : List Char → Option (List Char))
    (param_value param_name : List Char) (param_config : Json)
    (_func_name : List Char) : Except Unit Json :=
  let trimmed_value := trim_whitespace param_value
  if trimmed_value = "null".data then Except.ok Json.null
  else
    let schemaStep : Option (Except Unit Json) :=
      if jContains param_config param_name then
        let entry := jGetD param_config param_name
        let ptype : Except Unit (List Char) :=
          if jContains entry "type".data then
            match jLookup entry "type".data with
            | some (Json.str t) => Except.ok t
            | _ => Except.error ()
          else Except.ok "string".data
        match ptype with
        | Except.error e => some (Except.error e)
        | Except.ok t =>
          if t = "string".data ∨ t = "str".data ∨ t = "text".data then
            some (Except.ok (Json.str trimmed_value))
          else if t = "integer".data ∨ t = "int".data then
            some (Except.ok (match safe_parse_int trimmed_value with
              | some v => Json.numLit (intChars v)
              | none => Json.str trimmed_value))
          else if t = "number".data ∨ t = "float".data then
            some (Except.ok (match fp trimmed_value with
              | some out => Json.numLit out
              | none => Json.str trimmed_value))
          else if t = "boolean".data ∨ t = "bool".data then
            some (Except.ok (if trimmed_value = "true".data ∨ trimmed_value = "false".data then
                Json.boolVal (trimmed_value = "true".data)
              else Json.boolVal false))
          else if t = "object".data ∨ t = "array".data then
            some (Except.ok (match jp trimmed_value with
              | some parsed => parsed
              | none => Json.str trimmed_value))
          else none
      else none
    match schemaStep with
    | some r => r
    | none => Except.ok (inferParamValue jp fp trimmed_value)

def MAX_INPUT_SIZE : Nat := 1024 * 1024

def MAX_PARAMETER_COUNT : Nat := 100

def MAX_TAG_NAME_LENGTH : Nat := 256

def MAX_ATTRIBUTE_LENGTH : Nat := 1024

inductive XmlParseErrorType where
  | INPUT_TOO_LARGE
  | TAG_NAME_TOO_LONG
  | ATTRIBUTE_TOO_LONG
  | TOO_MANY_PARAMETERS
  | TOO_MANY_TOOLS
  | INVALID_XML_STRUCTURE
  | INVALID_FUNCTION_NAME
  | FUNCTION_NOT_FOUND
  | PARAMETER_CONVERSION_FAILED
  | JSON_SERIALIZATION_FAILED
deriving DecidableEq

/-- The error record written by `set_error`.  The human-readable `message`
string is logging detail and is not modelled; `type`, `position` and
`context` are.  An empty slot (`error.clear()` / `has_error() == false`) is
`none` at use sites. -/
structure XmlError where
  etype : XmlParseErrorType
  position : Nat
  context : List Char
deriving DecidableEq

structure XmlTag where
  name : List Char
  attr : List Char
  content : List Char
  start_pos : Nat
  end_pos : Nat
deriving DecidableEq

/-- The character after the matched `"<" + name` must be `>`, `=` or
whitespace for the candidate to count as this tag (prefix-collision
check in `find_xml_tag`). -/
def allowedNextChar (c : Char) : Bool :=
  c = '>' || c = '=' || isspaceB c

/-- The attribute-extraction block of `find_xml_tag` (the code between
finding the opening tag terminator and searching for the closing tag).
Returns the attribute characters (possibly empty), or the
`ATTRIBUTE_TOO_LONG` error that makes the whole `find_xml_tag` call fail. -/
def extract_attribute (text tag_name : List Char) (open_pos open_end : Nat) :
    Except XmlError (List Char) :=
  let tag_content_start := open_pos + 1 + tag_name.length
  if tag_content_start < open_end then
    match findSub text ['='] tag_content_start with
    | some eq_pos =>
      if eq_pos < open_end then
        let attr_start := skipWs text (eq_pos + 1) open_end
        if attr_start < open_end then
          let c0 := text.getD attr_start ' '
          let bounds : Nat × Nat :=
            if c0 = '"' ∨ c0 = Char.ofNat 39 then
              match findSub text [c0] (attr_start + 1) with
              | some quote_end =>
                if quote_end < open_end then (attr_start + 1, quote_end)
                else (attr_start, open_end)
              | none => (attr_start, open_end)
            else (attr_start, trimEndIdx text attr_start open_end)
          if bounds.1 < bounds.2 then
            let attr_view := (text.drop bounds.1).take (bounds.2 - bounds.1)
            if attr_view.length ≤ MAX_ATTRIBUTE_LENGTH then Except.ok attr_view
            else Except.error
              { etype := XmlParseErrorType.ATTRIBUTE_TOO_LONG,
                position := open_pos, context := attr_view.take 100 }
          else Except.ok []
        else Except.ok []
      else Except.ok []
    | none => Except.ok []
  else Except.ok []

/-- The iterative `while (search_pos < text.size())` loop of `find_xml_tag`.
Each iteration either returns or resumes one byte past the rejected
candidate, so `text.length + 1` units of fuel always suffice. -/
def find_xml_tag_loop (text tag_name open_tag_start close_tag : List Char)
    (err : Option XmlError) : Nat → Nat → Option XmlTag × Option XmlError
  | 0, _ => (none, err)
  | fuel + 1, search_pos =>
    if search_pos < text.length then
      match findSub text open_tag_start search_pos with
      | none => (none, err)
      | some open_pos =>
        let check_pos := open_pos + open_tag_start.length
        if check_pos < text.length ∧ ¬ allowedNextChar (text.getD check_pos ' ') then
          find_xml_tag_loop text tag_name open_tag_start close_tag err fuel (open_pos + 1)
        else
          match findSub text ['>'] open_pos with
          | none => (none, err)
          | some open_end =>
            match extract_attribute text tag_name open_pos open_end with
            | Except.error e => (none, some e)
            | Except.ok attr =>
              match findSub text close_tag (open_end + 1) with
              | none => (none, err)
              | some close_pos =>
                let content_start := open_end + 1
                let content_length := close_pos - content_start
                (some { name := tag_name,
                        attr := attr,
                        content := if content_length > 0 then
                            (text.drop content_start).take content_length
                          else [],
                        start_pos := open_pos,
                        end_pos := close_pos + close_tag.length }, err)
    else (none, err)

/-- Model of `find_xml_tag` from the source.  The caller-supplied error slot is
threaded in and out (`none` models a cleared slot or a null pointer). -/
def find_xml_tag (text tag_name : List Char) (start_pos : Nat)
    (err : Option XmlError) : Option XmlTag × Option XmlError :=
  if text.length > MAX_INPUT_SIZE then
    (none, some { etype := XmlParseErrorType.INPUT_TOO_LARGE, position := 0,
                  context := text.take (min text.length 100) })
  else if tag_name.length > MAX_TAG_NAME_LENGTH then
    (none, some { etype := XmlParseErrorType.TAG_NAME_TOO_LONG, position := 0,
                  context := tag_name })
  else if start_pos ≥ text.length then (none, err)
  else
    find_xml_tag_loop text tag_name ('<' :: tag_name)
      ('<' :: '/' :: (tag_name ++ ['>'])) err (text.length + 1) start_pos

/-- The scan loop of `find_all_xml_tags`.  Fuel is `MAX_PARAMETER_COUNT -
tag_count`, which is exact: the loop guard includes
`tag_count < MAX_PARAMETER_COUNT` and every iteration increments
`tag_count`. -/
def find_all_xml_tags_loop (text tag_name : List Char) :
    Nat → Nat → Nat → List XmlTag → Option XmlError →
    List XmlTag × Nat × Nat × Option XmlError
  | 0, pos, cnt, acc, err => (acc, pos, cnt, err)
  | fuel + 1, pos, cnt, acc, err =>
    if pos < text.length ∧ cnt < MAX_PARAMETER_COUNT then
      match find_xml_tag text tag_name pos err with
      | (none, err2) => (acc, pos, cnt, err2)
      | (some tag, err2) =>
        find_all_xml_tags_loop text tag_name fuel tag.end_pos (cnt + 1)
          (acc ++ [tag]) err2
    else (acc, pos, cnt, err)

/-- Model of `find_all_xml_tags` from the source: repeated `find_xml_tag`, resuming at
each tag's `end_pos`; after the loop, `tag_count >= MAX_PARAMETER_COUNT`
writes `TOO_MANY_PARAMETERS` into the error slot. -/
def find_all_xml_tags (text tag_name : List Char) (err : Option XmlError) :
    List XmlTag × Option XmlError :=
  let r := find_all_xml_tags_loop text tag_name MAX_PARAMETER_COUNT 0 0 [] err
  if r.2.2.1 ≥ MAX_PARAMETER_COUNT then
    (r.1, some { etype := XmlParseErrorType.TOO_MANY_PARAMETERS,
                 position := r.2.1,
                 context := (text.drop r.2.1).take (min (text.length - r.2.1) 100) })
  else (r.1, r.2.2.2)

structure ToolCall where
  name : List Char
  id : List Char
  arguments : List Char
deriving DecidableEq

/-- The parser state: input and configuration fixed at construction, plus the
cursor and the message under construction.  The reasoning-dialect
configuration (`syntax_`) is not modelled; no claim concerns it.
`isPartialFlag` is the `is_partial_` member. -/
structure ParserState where
  input : List Char
  isPartialFlag : Bool
  healing_marker : List Char
  pos : Nat
  content : List Char
  reasoning_content : List Char
  tool_calls : List ToolCall
  last_xml_error : Option XmlError

/-- A freshly constructed parser: `role = "assistant"`, empty accumulators,
cursor at 0.  The healing marker is rejection-sampled at construction; it is
taken here as a parameter. -/
def mkParser (input : List Char) (isPartialArg : Bool) (hm : List Char) : ParserState :=
  { input := input, isPartialFlag := isPartialArg, healing_marker := hm,
    pos := 0, content := [], reasoning_content := [], tool_calls := [],
    last_xml_error := none }

def add_content (c : List Char) (s : ParserState) : ParserState :=
  { s with content := s.content ++ c }

def add_reasoning_content (c : List Char) (s : ParserState) : ParserState :=
  { s with reasoning_content := s.reasoning_content ++ c }

/-- Model of `add_tool_call(name, id, arguments)`: rejects an empty name, otherwise
appends. -/
def add_tool_call (name id arguments : List Char) (s : ParserState) :
    Bool × ParserState :=
  if name.isEmpty then (false, s)
  else (true, { s with tool_calls :=
    s.tool_calls ++ [{ name := name, id := id, arguments := arguments }] })

/-- Field extraction in `add_tool_call(const json &)`:
`tool_call.contains(k) ? tool_call.at(k) : ""`.  The implicit conversion of a
non-string field to `std::string` throws, modelled by the `Except` error. -/
def jFieldString (j : Json) (key : List Char) : Except Unit (List Char) :=
  if jContains j key then
    match jLookup j key with
    | some (Json.str s) => Except.ok s
    | _ => Except.error ()
  else Except.ok []

def add_tool_call_j (j : Json) (s : ParserState) :
    Except Unit Bool × ParserState :=
  match jFieldString j "name".data with
  | Except.error e => (Except.error e, s)
  | Except.ok name =>
    match jFieldString j "id".data with
    | Except.error e => (Except.error e, s)
    | Except.ok id =>
      match jFieldString j "arguments".data with
      | Except.error e => (Except.error e, s)
      | Except.ok arguments =>
        let r := add_tool_call name id arguments s
        (Except.ok r.1, r.2)

/-- Model of `add_tool_calls(arr)`: calls `add_tool_call` on each element, returning
false on the first rejection (elements already appended stay). -/
def add_tool_calls (arr : List Json) (s : ParserState) :
    Except Unit Bool × ParserState :=
  match arr with
  | [] => (Except.ok true, s)
  | item :: rest =>
    match add_tool_call_j item s with
    | (Except.error e, s2) => (Except.error e, s2)
    | (Except.ok false, s2) => (Except.ok false, s2)
    | (Except.ok true, s2) => add_tool_calls rest s2

def clear_tools (s : ParserState) : ParserState :=
  { s with tool_calls := [] }

/-- Model of `move_to` from the parser's header: sets the cursor. -/
def move_to (p : Nat) (s : ParserState) : ParserState :=
  { s with pos := p }

/-- The character-by-character loop of `try_consume_literal`, on a local
position that is committed only if the whole literal matches. -/
def consume_literal_loop (input : List Char) : List Char → Nat → Option Nat
  | [], p => some p
  | c :: rest, p =>
    if p ≥ input.length then none
    else if input.getD p ' ' ≠ c then none
    else consume_literal_loop input rest (p + 1)

def try_consume_literal (literal : List Char) (s : ParserState) :
    Bool × ParserState :=
  match consume_literal_loop s.input literal s.pos with
  | some p => (true, { s with pos := p })
  | none => (false, s)

structure CommonStringRange where
  rb : Nat
  re : Nat
deriving DecidableEq

structure FindRegexResult where
  prelude : List Char
  groups : List CommonStringRange
deriving DecidableEq

/-- Modelled from the spec: `string_find_partial_stop` (defined in
`common.cpp`, which is not part of the given sources) locates the longest
suffix of `input` that is a proper prefix of `literal`, returning the index
where that suffix starts, or `none`. -/
def string_find_partial_stop (input literal : List Char) : Option Nat :=
  (List.range input.length).find?
    (fun idx => (input.drop idx).isPrefixOf literal && !((input.drop idx) == literal))

def try_find_literal (literal : List Char) (s : ParserState) :
    Option FindRegexResult × ParserState :=
  match findSub s.input literal s.pos with
  | some idx =>
    let endp := idx + literal.length
    (some { prelude := (s.input.drop s.pos).take (idx - s.pos),
            groups := [{ rb := idx, re := endp }] },
     move_to endp s)
  | none =>
    if s.isPartialFlag then
      match string_find_partial_stop s.input literal with
      | some idx =>
        if idx ≥ s.pos then
          let endp := s.input.length
          (some { prelude := (s.input.drop s.pos).take (idx - s.pos),
                  groups := [{ rb := idx, re := endp }] },
           move_to endp s)
        else (none, s)
      | none => (none, s)
    else (none, s)

inductive CommonRegexMatchType where
  | NONE_M
  | PARTIAL_M
  | FULL_M
deriving DecidableEq

structure CommonRegexMatch where
  mtype : CommonRegexMatchType
  groups : List CommonStringRange

/-- The external partial-regex matcher (`common_regex`): `search` reports
None / Partial / Full with the match groups (group 0 is the whole match);
`src` is `regex.str()`, used in the exception message. -/
structure CommonRegex where
  search : List Char → Nat → CommonRegexMatch
  src : List Char

/-- Model of `common_chat_msg_partial_exception(token)`. -/
structure ChatMsgPartialExc where
  tok : List Char
deriving DecidableEq

/-- Model of `try_find_regex(regex, from, add_prelude_to_content)` from the source.
Note the order of operations: on any non-None match the cursor is moved to
the end of group 0 (and the prelude optionally appended to content) before
the Partial case is examined, so a Partial match under `!is_partial()`
returns `none` with the cursor already moved. -/
def try_find_regex (regex : CommonRegex) (fromPos : Option Nat)
    (add_prelude_to_content : Bool) (s : ParserState) :
    Except ChatMsgPartialExc (Option FindRegexResult) × ParserState :=
  let m := regex.search s.input (fromPos.getD s.pos)
  match m.mtype with
  | CommonRegexMatchType.NONE_M => (Except.ok none, s)
  | t =>
    let g0 := m.groups.headD { rb := 0, re := 0 }
    let prelude := (s.input.drop s.pos).take (g0.rb - s.pos)
    let s1 := { s with pos := g0.re }
    let s2 := if add_prelude_to_content then add_content prelude s1 else s1
    match t with
    | CommonRegexMatchType.PARTIAL_M =>
      if s.isPartialFlag then (Except.error { tok := regex.src }, s2)
      else (Except.ok none, s2)
    | _ => (Except.ok (some { prelude := prelude, groups := m.groups }), s2)

/-- Model of `try_consume_regex(regex)` from the source: a Full match anchored exactly
at the cursor; the cursor is moved only on success. -/
def try_consume_regex (regex : CommonRegex) (s : ParserState) :
    Except ChatMsgPartialExc (Option FindRegexResult) × ParserState :=
  let m := regex.search s.input s.pos
  match m.mtype with
  | CommonRegexMatchType.NONE_M => (Except.ok none, s)
  | CommonRegexMatchType.PARTIAL_M =>
    if s.isPartialFlag then (Except.error { tok := regex.src }, s)
    else (Except.ok none, s)
  | CommonRegexMatchType.FULL_M =>
    let g0 := m.groups.headD { rb := 0, re := 0 }
    if g0.rb ≠ s.pos then (Except.ok none, s)
    else (Except.ok (some { prelude := [], groups := m.groups }),
          { s with pos := g0.re })

/-- The healing token produced by the external partial-JSON parser:
`marker` is the raw spliced string, `json_dump_marker` its JSON-escaped
form. -/
structure HealingMarkerPair where
  marker : List Char
  json_dump_marker : List Char

/-- Model of `common_json`: the parsed (possibly healed) value plus the healing
token. -/
structure CommonJson where
  jvalue : Json
  healing : HealingMarkerPair

/-- Model of `try_consume_json` from the source.  `cjp` models the external
`common_json_parse(it, end, healing_marker, result)`: given the input, the
cursor and the healing marker it returns the parsed value and the new cursor
position, or `none` on a hard syntax error.  When healing occurred on a
non-partial parse, `Partial("JSON")` is raised (after the cursor moved). -/
def try_consume_json
    (cjp : List Char → Nat → List Char → Option (CommonJson × Nat))
    (s : ParserState) :
    Except ChatMsgPartialExc (Option CommonJson) × ParserState :=
  match cjp s.input s.pos s.healing_marker with
  | none => (Except.ok none, s)
  | some (result, newPos) =>
    let s1 := { s with pos := newPos }
    if result.healing.marker.isEmpty then (Except.ok (some result), s1)
    else if ¬ s.isPartialFlag then (Except.error { tok := "JSON".data }, s1)
    else (Except.ok (some result), s1)

/-- The captured context of `remove_unsupported_healings_and_dump_args`:
the two path sets, the parser's `is_partial()` and `healing_marker_`, and
the healing token of the JSON value being walked. -/
structure DumpCtx where
  args_paths : List (List (List Char))
  content_paths : List (List (List Char))
  isPartialFlag : Bool
  healing_marker : List Char
  marker : List Char
  json_dump_marker : List Char

mutual
/-- Model of `remove_unsupported_healings_and_dump_args` from the source.  The C++
lambda mutates a shared `path` vector and a `found_healing_marker` flag; both
are threaded explicitly here (including the fact that a `break` out of an
object iteration leaves the just-pushed key on the shared path).  The
`Except` error is the `runtime_error` thrown for a non-string value at a
content path. -/
def rhd (ctx : DumpCtx) (j : Json) (path : List (List Char)) (found : Bool) :
    Except Unit (Json × List (List Char) × Bool) :=
  if path ∈ ctx.args_paths then
    let arguments := dumpJson j
    if ctx.isPartialFlag ∧ ¬ ctx.marker.isEmpty then
      match findSub arguments ctx.json_dump_marker 0 with
      | some idx =>
        let a2 := arguments.take idx
        Except.ok (Json.str (if a2 = ['"'] then [] else a2), path, true)
      | none =>
        Except.ok (Json.str (if arguments = ['"'] then [] else arguments), path, found)
    else Except.ok (Json.str arguments, path, found)
  else if path ∈ ctx.content_paths then
    match j with
    | Json.str s1 =>
      match findSub s1 ctx.marker 0 with
      | some idx => Except.ok (Json.str (s1.take idx), path, true)
      | none => Except.ok (Json.str s1, path, found)
    | _ => Except.error ()
  else
    match j with
    | Json.obj kvs => rhdObj ctx kvs [] path found
    | Json.arr xs => rhdArr ctx xs [] path found
    | other => Except.ok (other, path, found)

/-- The object iteration of the walk: a key containing the healing marker, or
a string value containing it, stops the iteration (the latter keeps the pair
only at a content path healed inside the string). -/
def rhdObj (ctx : DumpCtx) (fields : List (List Char × Json))
    (acc : List (List Char × Json)) (path : List (List Char)) (found : Bool) :
    Except Unit (Json × List (List Char) × Bool) :=
  match fields with
  | [] => Except.ok (Json.obj acc, path, found)
  | (k, v) :: rest =>
    if (findSub k ctx.healing_marker 0).isSome then
      Except.ok (Json.obj acc, path, true)
    else
      let path1 := path ++ [k]
      match v with
      | Json.str vs =>
        if (findSub vs ctx.healing_marker 0).isSome then
          if path1 ∈ ctx.content_paths ∧ ctx.marker = ctx.json_dump_marker then
            match rhd ctx (Json.str vs) path1 true with
            | Except.error e => Except.error e
            | Except.ok (v2, path2, found2) =>
              Except.ok (Json.obj (jInsert acc k v2), path2, found2)
          else Except.ok (Json.obj acc, path1, true)
        else rhdObj ctx rest (jInsert acc k (Json.str vs)) path found
      | other =>
        match rhd ctx other path1 found with
        | Except.error e => Except.error e
        | Except.ok (v2, path2, found2) =>
          rhdObj ctx rest (jInsert acc k v2) path2.dropLast found2

/-- The array iteration of the walk: a string element containing the healing
marker truncates the array there; other elements recurse with the path
unchanged. -/
def rhdArr (ctx : DumpCtx) (elts : List Json) (acc : List Json)
    (path : List (List Char)) (found : Bool) :
    Except Unit (Json × List (List Char) × Bool) :=
  match elts with
  | [] => Except.ok (Json.arr acc, path, found)
  | v :: rest =>
    match v with
    | Json.str s1 =>
      if (findSub s1 ctx.healing_marker 0).isSome then
        Except.ok (Json.arr acc, path, true)
      else
        match rhd ctx (Json.str s1) path found with
        | Except.error e => Except.error e
        | Except.ok (v2, path2, found2) => rhdArr ctx rest (acc ++ [v2]) path2 found2
    | other =>
      match rhd ctx other path found with
      | Except.error e => Except.error e
      | Except.ok (v2, path2, found2) => rhdArr ctx rest (acc ++ [v2]) path2 found2
end

/-- The four ways `try_consume_json_with_dumped_args` can come back to its
caller: the `Partial` exception from `try_consume_json`, the `runtime_error`
from the walk, `nullopt`, or a `consume_json_result` value. -/
inductive DumpedArgsOutcome where
  | outPartialExc (tok : List Char)
  | outRuntimeErr
  | outNoParse
  | outOk (jvalue : Json) (partialResult : Bool)

/-- Model of `try_consume_json_with_dumped_args` from the source: consume JSON at the
cursor, take a fast path when no healing occurred, otherwise walk the value,
pairing the cleaned result with `found_healing_marker`. -/
def try_consume_json_with_dumped_args
    (cjp : List Char → Nat → List Char → Option (CommonJson × Nat))
    (args_paths content_paths : List (List (List Char)))
    (s : ParserState) : DumpedArgsOutcome × ParserState :=
  match try_consume_json cjp s with
  | (Except.error e, s1) => (DumpedArgsOutcome.outPartialExc e.tok, s1)
  | (Except.ok none, s1) => (DumpedArgsOutcome.outNoParse, s1)
  | (Except.ok (some pjson), s1) =>
    if pjson.healing.marker.isEmpty ∧ args_paths.isEmpty then
      (DumpedArgsOutcome.outOk pjson.jvalue false, s1)
    else if pjson.healing.marker.isEmpty ∧ [] ∈ args_paths then
      (DumpedArgsOutcome.outOk (Json.str (dumpJson pjson.jvalue)) false, s1)
    else
      let ctx : DumpCtx :=
        { args_paths := args_paths, content_paths := content_paths,
          isPartialFlag := s.isPartialFlag, healing_marker := s.healing_marker,
          marker := pjson.healing.marker,
          json_dump_marker := pjson.healing.json_dump_marker }
      match rhd ctx pjson.jvalue [] false with
      | Except.error _ => (DumpedArgsOutcome.outRuntimeErr, s1)
      | Except.ok (cleaned, _, found) => (DumpedArgsOutcome.outOk cleaned found, s1)

/-- A tool schema as supplied to the parser: a name and the JSON Schema text
of its parameters. -/
structure CommonChatTool where
  name : List Char
  parameters : List Char

/-- Model of `get_param_config` from the source: parse the matching tool's parameter
text (via the external parser `jp`), unwrap a top-level `properties` object
if present; any failure yields an empty object. -/
def get_param_config (jp : List Char → Option Json) (func_name : List Char)
    (tools : List CommonChatTool) : Json :=
  match tools.find? (fun t => t.name = func_name) with
  | some tool =>
    match jp tool.parameters with
    | some params =>
      if jContains params "properties".data then jGetD params "properties".data
      else params
    | none => Json.obj []
  | none => Json.obj []

/-- The `for (param_tag : parameter_tags)` loop of
`parse_qwen3_xml_tool_call`: builds the ordered `arguments` object, skipping
malformed parameter tags, and on a conversion failure recording
`PARAMETER_CONVERSION_FAILED` while keeping the trimmed raw value as a
string argument. -/
def process_parameters (jp : List Char → Option Json)
    (fp : List Char → Option (List Char))
    (function_name : List Char) (param_config : Json)
    (tc_start fn_start : Nat) :
    List XmlTag → List (List Char × Json) → Option XmlError → Nat →
    List (List Char × Json) × Option XmlError × Nat
  | [], args, err, cnt => (args, err, cnt)
  | ptag :: rest, args, err, cnt =>
    if cnt ≥ MAX_PARAMETER_COUNT then
      (args, some { etype := XmlParseErrorType.TOO_MANY_PARAMETERS,
                    position := tc_start + fn_start,
                    context := function_name }, cnt)
    else if ptag.attr.isEmpty then
      process_parameters jp fp function_name param_config tc_start fn_start
        rest args err cnt
    else
      let param_name := trim_whitespace ptag.attr
      let param_value := ptag.content
      if param_name.isEmpty ∨ param_name.length > MAX_TAG_NAME_LENGTH then
        process_parameters jp fp function_name param_config tc_start fn_start
          rest args err cnt
      else
        match convert_qwen3_param_value jp fp param_value param_name
            param_config function_name with
        | Except.ok v =>
          process_parameters jp fp function_name param_config tc_start fn_start
            rest (jInsert args param_name v) err (cnt + 1)
        | Except.error _ =>
          process_parameters jp fp function_name param_config tc_start fn_start
            rest (jInsert args param_name (Json.str (trim_whitespace param_value)))
            (some { etype := XmlParseErrorType.PARAMETER_CONVERSION_FAILED,
                    position := tc_start + fn_start + ptag.start_pos,
                    context := param_name ++ '=' :: param_value })
            (cnt + 1)

/-- The three-argument `parse_qwen3_xml_tool_call(content, tools, error)`:
returns the success flag, the mutated parser state, and the final contents of
the caller-supplied error slot (`none` for a cleared slot).  The
`JSON_SERIALIZATION_FAILED` path is unreachable in the model because `dump`
of the built argument object is total. -/
def parse_qwen3_xml_tool_call_core (jp : List Char → Option Json)
    (fp : List Char → Option (List Char))
    (content : List Char) (tools : List CommonChatTool) (s : ParserState) :
    Bool × ParserState × Option XmlError :=
  if content.length > MAX_INPUT_SIZE then
    (false, s, some { etype := XmlParseErrorType.INPUT_TOO_LARGE, position := 0,
                      context := content.take (min content.length 100) })
  else if tools.length > MAX_PARAMETER_COUNT then
    (false, s, some { etype := XmlParseErrorType.TOO_MANY_TOOLS, position := 0,
                      context := [] })
  else
    match find_xml_tag content "tool_call".data 0 none with
    | (none, errA) =>
      (false, s, some (errA.getD
        { etype := XmlParseErrorType.INVALID_XML_STRUCTURE, position := 0,
          context := content.take (min content.length 100) }))
    | (some tct, errA) =>
      let s1 := if tct.start_pos > 0 ∧ tct.start_pos ≤ content.length then
          (if (content.take tct.start_pos).isEmpty then s
           else add_content (content.take tct.start_pos) s)
        else s
      match find_xml_tag tct.content "function".data 0 errA with
      | (none, errB) =>
        (false, s1, some (errB.getD
          { etype := XmlParseErrorType.INVALID_XML_STRUCTURE,
            position := tct.start_pos,
            context := tct.content.take (min tct.content.length 100) }))
      | (some ft, errB) =>
        if ft.attr.isEmpty then
          (false, s1, some (errB.getD
            { etype := XmlParseErrorType.INVALID_XML_STRUCTURE,
              position := tct.start_pos,
              context := tct.content.take (min tct.content.length 100) }))
        else
          let function_name := trim_whitespace ft.attr
          if function_name.isEmpty ∨ function_name.length > MAX_TAG_NAME_LENGTH then
            (false, s1, some { etype := XmlParseErrorType.INVALID_FUNCTION_NAME,
                               position := tct.start_pos + ft.start_pos,
                               context := function_name })
          else if ¬ tools.isEmpty ∧
              (tools.find? (fun t => t.name = function_name)).isNone then
            (false, s1, some { etype := XmlParseErrorType.FUNCTION_NOT_FOUND,
                               position := tct.start_pos + ft.start_pos,
                               context := function_name })
          else
            let param_config := get_param_config jp function_name tools
            match find_all_xml_tags ft.content "parameter".data errB with
            | (_, some errC) => (false, s1, some errC)
            | (ptags, none) =>
              let pr := process_parameters jp fp function_name param_config
                tct.start_pos ft.start_pos ptags [] none 0
              let args_json := dumpJson (Json.obj pr.1)
              let r := add_tool_call function_name [] args_json s1
              (r.1, r.2, pr.2.1)

/-- The two-argument overload: runs the core parser on a cleared error slot
and stores the slot's final contents in `last_xml_error_`. -/
def parse_qwen3_xml_tool_call (jp : List Char → Option Json)
    (fp : List Char → Option (List Char))
    (content : List Char) (tools : List CommonChatTool) (s : ParserState) :
    Bool × ParserState :=
  let r := parse_qwen3_xml_tool_call_core jp fp content tools s
  (r.1, { r.2.1 with last_xml_error := r.2.2 })

/-- The message-writing operations of the parser, for stating whole-run
invariants over arbitrary operation sequences. -/
inductive ParserOp where
  | opAddContent (c : List Char)
  | opAddReasoningContent (c : List Char)
  | opAddToolCall (name id arguments : List Char)
  | opAddToolCallJ (j : Json)
  | opAddToolCalls (arr : List Json)
  | opClearTools
  | opParseQwen3 (jp : List Char → Option Json)
      (fp : List Char → Option (List Char))
      (content : List Char) (tools : List CommonChatTool)

/-- Apply one operation, keeping the state it leaves behind (for operations
that throw, the state at the throw point). -/
def applyOp (op : ParserOp) (s : ParserState) : ParserState :=
  match op with
  | ParserOp.opAddContent c => add_content c s
  | ParserOp.opAddReasoningContent c => add_reasoning_content c s
  | ParserOp.opAddToolCall name id arguments => (add_tool_call name id arguments s).2
  | ParserOp.opAddToolCallJ j => (add_tool_call_j j s).2
  | ParserOp.opAddToolCalls arr => (add_tool_calls arr s).2
  | ParserOp.opClearTools => clear_tools s
  | ParserOp.opParseQwen3 jp fp content tools =>
    (parse_qwen3_xml_tool_call jp fp content tools s).2

def applyOps (ops : List ParserOp) (s : ParserState) : ParserState :=
  ops.foldl (fun st op => applyOp op st) s

/-- The output invariant of interest: every accumulated tool call has a
non-empty name. -/
def toolNamesNonEmpty (s : ParserState) : Bool :=
  s.tool_calls.all (fun tc => ¬ tc.name.isEmpty)

/- Inputs, external-collaborator instances and spec-side definitions used
   by the claim theorems below. -/

/-- The C2 counterexample regex: its external matcher reports a Partial match
spanning bytes [1,2) wherever it is asked. -/
def c2Regex : CommonRegex :=
  { search := fun _ _ =>
      { mtype := CommonRegexMatchType.PARTIAL_M,
        groups := [{ rb := 1, re := 2 }] },
    src := "r".data }

def c2State : ParserState := mkParser "ab".data false "Z".data

/-- A regex whose matcher never matches, for the C2 witness. -/
def c2wRegex : CommonRegex :=
  { search := fun _ _ => { mtype := CommonRegexMatchType.NONE_M, groups := [] },
    src := "r".data }

def c2wState : ParserState := mkParser "abc".data false "Z".data

def exOk {α : Type} (e : Except Unit α) : Bool :=
  match e with
  | Except.ok _ => true
  | Except.error _ => false

def exGetD (e : Except Unit (List Char)) : List Char :=
  match e with
  | Except.ok s => s
  | Except.error _ => []

/-- The name test `add_tool_call` applies to a JSON-array element. -/
def goodName (j : Json) : Bool :=
  ¬ (exGetD (jFieldString j "name".data)).isEmpty

/-- The tool call built from a JSON-array element. -/
def mkToolCallOf (j : Json) : ToolCall :=
  { name := exGetD (jFieldString j "name".data),
    id := exGetD (jFieldString j "id".data),
    arguments := exGetD (jFieldString j "arguments".data) }

def c3Item1 : Json := Json.obj [("name".data, Json.str "a".data)]

def c3Item2 : Json := Json.obj [("name".data, Json.str [])]

def c3State : ParserState := mkParser [] false "Z".data

def c4jp : List Char → Option Json := fun s =>
  if s = "sch1".data then
    some (Json.obj [("properties".data,
      Json.obj [("q".data, Json.obj [("type".data, Json.str "string".data)])])])
  else none

def c4fp : List Char → Option (List Char) := fun _ => none

def c4Tools : List CommonChatTool := [{ name := "f".data, parameters := "sch1".data }]

def c4State : ParserState := mkParser [] false "Z".data

def c4Input : List Char :=
  "<tool_call><function=f><parameter=q> x</parameter></function></tool_call>".data

def c4InputNull : List Char :=
  "<tool_call><function=f><parameter=q>null</parameter></function></tool_call>".data

/-- Follows the spec's words for the argument-path case of the dumper walk:
serialize the subtree; when partial and healed, truncate at the first
occurrence of the JSON dump marker; a result of a lone `"` becomes the empty
string; the flag reports whether the marker was found. -/
def argsDumpSpec (partialFlag : Bool) (marker jdm text : List Char) :
    List Char × Bool :=
  if partialFlag ∧ ¬ marker.isEmpty then
    match findSub text jdm 0 with
    | some idx =>
      ((if text.take idx = ['"'] then [] else text.take idx), true)
    | none => ((if text = ['"'] then [] else text), false)
  else (text, false)

def c5ctx : DumpCtx :=
  { args_paths := [[]], content_paths := [], isPartialFlag := true,
    healing_marker := "M".data, marker := "M".data, json_dump_marker := "M".data }

def c5cjp : List Char → Nat → List Char → Option (CommonJson × Nat) :=
  fun _ _ _ =>
    some ({ jvalue := Json.obj [("a".data, Json.str "x".data)],
            healing := { marker := "M".data, json_dump_marker := "M".data } }, 4)

def c5State : ParserState := mkParser "xxxx".data true "M".data

def c6cj (hm : List Char) : CommonJson :=
  { jvalue := Json.null, healing := { marker := hm, json_dump_marker := hm } }

def c6cjp : List Char → Nat → List Char → Option (CommonJson × Nat) :=
  fun _ _ hm => some (c6cj hm, 3)

def c6StateF : ParserState := mkParser "abc".data false "M".data

def c6StateT : ParserState := mkParser "abc".data true "M".data

def c9jp : List Char → Option Json := fun s =>
  if s = "sch1".data then
    some (Json.obj [("properties".data,
      Json.obj [("q".data, Json.obj [("type".data, Json.numLit "123".data)])])])
  else none

def c9Input : List Char :=
  "<tool_call><function=f><parameter=q>v</parameter></function></tool_call>".data

def c9wTag : XmlTag :=
  { name := "parameter".data, attr := "q".data, content := "v".data,
    start_pos := 0, end_pos := 26 }

def c9wConfig : Json :=
  Json.obj [("q".data, Json.obj [("type".data, Json.numLit "123".data)])]

def c1Block : List Char := "<parameter=a>x</parameter>".data

def c1Text (n : Nat) : List Char := (List.replicate n c1Block).flatten

/-- The tag record that `find_xml_tag` yields for the `i`-th parameter block
of the C1 input. -/
def c1TagAt (i : Nat) : XmlTag :=
  { name := "parameter".data, attr := ['a'], content := ['x'],
    start_pos := i * 26, end_pos := i * 26 + 26 }

/- General lemmas. -/

theorem isPrefixOf_append_left {pat u : List Char} (v : List Char)
    (h : pat.length ≤ u.length) :
    pat.isPrefixOf (u ++ v) = pat.isPrefixOf u := by
  induction pat generalizing u with
  | nil => simp [List.isPrefixOf]
  | cons c cs ih =>
    cases u with
    | nil => simp at h
    | cons b bs =>
      simp only [List.cons_append, List.isPrefixOf]
      by_cases hcb : c == b
      · simp only [List.length_cons] at h
        simp [hcb, ih (Nat.succ_le_succ_iff.mp h)]
      · simp [hcb]

theorem findSubAux_nilpat (l : List Char) (i : Nat) :
    findSubAux [] l i = some i := by
  cases l <;> simp [findSubAux, List.isPrefixOf]

theorem findSubAux_append_stable {pat l : List Char} {i j : Nat}
    (rest : List Char) (h : findSubAux pat l i = some j)
    (hb : (j - i) + pat.length ≤ l.length) :
    findSubAux pat (l ++ rest) i = some j := by
  induction l generalizing i with
  | nil =>
    simp only [findSubAux] at h
    split at h
    · rename_i he
      simp only [List.isEmpty_iff] at he
      subst he
      simp only [Option.some.injEq] at h
      subst h
      simp only [List.nil_append]
      rw [findSubAux_nilpat]
    · simp at h
  | cons c cs ih =>
    have hge := findSubAux_ge h
    simp only [findSubAux] at h
    split at h
    · rename_i hp
      simp only [Option.some.injEq] at h
      subst h
      have hlen : pat.length ≤ (c :: cs).length := by
        simp only [List.length_cons] at hb ⊢
        omega
      show findSubAux pat ((c :: cs) ++ rest) i = some i
      rw [show ((c :: cs) ++ rest) = c :: (cs ++ rest) from rfl]
      rw [findSubAux]
      rw [show (c :: (cs ++ rest)) = ((c :: cs) ++ rest) from rfl]
      rw [isPrefixOf_append_left rest hlen]
      rw [if_pos hp]
    · rename_i hp
      have hge2 := findSubAux_ge h
      have hlen : pat.length ≤ (c :: cs).length := by
        simp only [List.length_cons] at hb ⊢
        omega
      show findSubAux pat ((c :: cs) ++ rest) i = some j
      rw [show ((c :: cs) ++ rest) = c :: (cs ++ rest) from rfl]
      rw [findSubAux]
      rw [show (c :: (cs ++ rest)) = ((c :: cs) ++ rest) from rfl]
      rw [isPrefixOf_append_left rest hlen]
      rw [if_neg hp]
      exact ih h (by simp only [List.length_cons] at hb; omega)

theorem findSub_append_stable {l pat : List Char} {s j : Nat} (rest : List Char)
    (h : findSub l pat s = some j) :
    findSub (l ++ rest) pat s = some j := by
  have hb := findSub_le_length h
  have hg := findSub_ge h
  unfold findSub at h ⊢
  split at h
  · rename_i hs
    rw [if_pos (by simp; omega)]
    rw [List.drop_append_of_le_length hs]
    exact findSubAux_append_stable rest h
      (by
        have hj := findSubAux_le h
        simp only [List.length_drop] at hj ⊢
        omega)
  · simp at h

theorem findSubAux_shift (pat l : List Char) (d : Nat) :
    ∀ i, findSubAux pat l (d + i) = (findSubAux pat l i).map (· + d) := by
  induction l with
  | nil =>
    intro i
    simp only [findSubAux]
    split <;> simp [Nat.add_comm]
  | cons c cs ih =>
    intro i
    simp only [findSubAux]
    split
    · simp [Nat.add_comm]
    · rw [show d + i + 1 = d + (i + 1) from by omega]
      exact ih (i + 1)

theorem findSub_shift (P X pat : List Char) (s : Nat) :
    findSub (P ++ X) pat (P.length + s) =
      (findSub X pat s).map (· + P.length) := by
  unfold findSub
  by_cases hs : s ≤ X.length
  · rw [if_pos (by simp only [List.length_append]; omega),
      if_pos hs]
    rw [List.drop_append]
    rw [findSubAux_shift pat (X.drop s) P.length s]
  · rw [if_neg (by simp only [List.length_append]; omega), if_neg hs]
    simp

theorem skipWsAux_shift (P X : List Char) (b : Nat) :
    ∀ fuel i, skipWsAux (P ++ X) (P.length + b) fuel (P.length + i) =
      P.length + skipWsAux X b fuel i := by
  intro fuel
  induction fuel with
  | zero => intro i; simp [skipWsAux]
  | succ n ih =>
    intro i
    simp only [skipWsAux]
    have hg : (P ++ X).getD (P.length + i) ' ' = X.getD i ' ' := by
      rw [List.getD_append_right _ _ _ _ (by omega)]
      simp
    rw [hg]
    simp only [Bool.and_eq_true, decide_eq_true_eq, Nat.add_lt_add_iff_left]
    by_cases hib : i < b
    · by_cases hws : isspaceB (X.getD i ' ') = true
      · rw [if_pos ⟨hib, hws⟩, if_pos ⟨hib, hws⟩]
        rw [show P.length + i + 1 = P.length + (i + 1) from by omega]
        exact ih (i + 1)
      · rw [if_neg (fun hc => hws hc.2), if_neg (fun hc => hws hc.2)]
    · rw [if_neg (fun hc => hib hc.1), if_neg (fun hc => hib hc.1)]

theorem skipWs_shift (P X : List Char) (i b : Nat) :
    skipWs (P ++ X) (P.length + i) (P.length + b) = P.length + skipWs X i b := by
  unfold skipWs
  rw [show P.length + b - (P.length + i) = b - i from by omega]
  exact skipWsAux_shift P X b (b - i) i

theorem trimEndAux_shift (P X : List Char) (a : Nat) :
    ∀ fuel e, trimEndAux (P ++ X) (P.length + a) fuel (P.length + e) =
      P.length + trimEndAux X a fuel e := by
  intro fuel
  induction fuel with
  | zero => intro e; simp [trimEndAux]
  | succ n ih =>
    intro e
    simp only [trimEndAux]
    simp only [Bool.and_eq_true, decide_eq_true_eq, Nat.add_lt_add_iff_left]
    by_cases hae : a < e
    · have hg : (P ++ X).getD (P.length + e - 1) ' ' = X.getD (e - 1) ' ' := by
        rw [List.getD_append_right _ _ _ _ (by omega)]
        congr 1
        omega
      rw [hg]
      by_cases hws : isspaceB (X.getD (e - 1) ' ') = true
      · rw [if_pos ⟨hae, hws⟩, if_pos ⟨hae, hws⟩]
        rw [show P.length + e - 1 = P.length + (e - 1) from by omega]
        exact ih (e - 1)
      · rw [if_neg (fun hc => hws hc.2), if_neg (fun hc => hws hc.2)]
    · have hg : ((P ++ X).getD (P.length + e - 1) ' ' = X.getD (e - 1) ' ') ∨
          ¬ a < e := Or.inr hae
      rw [if_neg (fun hc => hae hc.1), if_neg (fun hc => hae hc.1)]

theorem trimEndIdx_shift (P X : List Char) (a e : Nat) :
    trimEndIdx (P ++ X) (P.length + a) (P.length + e) = P.length + trimEndIdx X a e := by
  unfold trimEndIdx
  rw [show P.length + e - (P.length + a) = e - a from by omega]
  exact trimEndAux_shift P X a (e - a) e

theorem extract_attribute_unquoted_eval
    (text tag_name : List Char) (open_pos open_end eq_pos : Nat)
    (h1 : open_pos + 1 + tag_name.length < open_end)
    (h2 : findSub text ['='] (open_pos + 1 + tag_name.length) = some eq_pos)
    (h3 : eq_pos < open_end)
    (h4 : skipWs text (eq_pos + 1) open_end < open_end)
    (h5 : ¬ (text.getD (skipWs text (eq_pos + 1) open_end) ' ' = '"' ∨
         text.getD (skipWs text (eq_pos + 1) open_end) ' ' = Char.ofNat 39))
    (h6 : skipWs text (eq_pos + 1) open_end <
        trimEndIdx text (skipWs text (eq_pos + 1) open_end) open_end)
    (h7 : trimEndIdx text (skipWs text (eq_pos + 1) open_end) open_end -
        skipWs text (eq_pos + 1) open_end ≤ MAX_ATTRIBUTE_LENGTH) :
    extract_attribute text tag_name open_pos open_end =
      Except.ok ((text.drop (skipWs text (eq_pos + 1) open_end)).take
        (trimEndIdx text (skipWs text (eq_pos + 1) open_end) open_end -
         skipWs text (eq_pos + 1) open_end)) := by
  unfold extract_attribute
  rw [if_pos h1, h2]
  dsimp only
  rw [if_pos h3, if_pos h4, if_neg h5]
  dsimp only
  rw [if_pos h6]
  have hvlen : ((text.drop (skipWs text (eq_pos + 1) open_end)).take
      (trimEndIdx text (skipWs text (eq_pos + 1) open_end) open_end -
       skipWs text (eq_pos + 1) open_end)).length ≤ MAX_ATTRIBUTE_LENGTH := by
    have := List.length_take_le
      (trimEndIdx text (skipWs text (eq_pos + 1) open_end) open_end -
       skipWs text (eq_pos + 1) open_end)
      (text.drop (skipWs text (eq_pos + 1) open_end))
    omega
  rw [if_pos hvlen]

theorem find_xml_tag_loop_first_success
    (text tag_name ots ct attr : List Char) (err : Option XmlError)
    (fuel sp op oe cp : Nat)
    (h0 : sp < text.length)
    (h1 : findSub text ots sp = some op)
    (h2 : ¬ (op + ots.length < text.length ∧
        ¬ allowedNextChar (text.getD (op + ots.length) ' ') = true))
    (h3 : findSub text ['>'] op = some oe)
    (h4 : extract_attribute text tag_name op oe = Except.ok attr)
    (h5 : findSub text ct (oe + 1) = some cp) :
    find_xml_tag_loop text tag_name ots ct err (fuel + 1) sp =
      (some { name := tag_name, attr := attr,
              content := if cp - (oe + 1) > 0 then
                  (text.drop (oe + 1)).take (cp - (oe + 1))
                else [],
              start_pos := op, end_pos := cp + ct.length }, err) := by
  rw [find_xml_tag_loop]
  rw [if_pos h0, h1]
  dsimp only
  rw [if_neg h2, h3]
  dsimp only
  rw [h4]
  dsimp only
  rw [h5]

theorem find_xml_tag_eval
    (text tag_name attr : List Char) (err : Option XmlError)
    (sp op oe cp : Nat)
    (hsz : ¬ text.length > MAX_INPUT_SIZE)
    (htn : ¬ tag_name.length > MAX_TAG_NAME_LENGTH)
    (h0 : sp < text.length)
    (h1 : findSub text ('<' :: tag_name) sp = some op)
    (h2 : ¬ (op + ('<' :: tag_name).length < text.length ∧
        ¬ allowedNextChar (text.getD (op + ('<' :: tag_name).length) ' ') = true))
    (h3 : findSub text ['>'] op = some oe)
    (h4 : extract_attribute text tag_name op oe = Except.ok attr)
    (h5 : findSub text ('<' :: '/' :: (tag_name ++ ['>'])) (oe + 1) = some cp) :
    find_xml_tag text tag_name sp err =
      (some { name := tag_name, attr := attr,
              content := if cp - (oe + 1) > 0 then
                  (text.drop (oe + 1)).take (cp - (oe + 1))
                else [],
              start_pos := op, end_pos := cp +
                ('<' :: '/' :: (tag_name ++ ['>'])).length }, err) := by
  unfold find_xml_tag
  rw [if_neg hsz, if_neg htn, if_neg (by omega)]
  exact find_xml_tag_loop_first_success text tag_name _ _ attr err text.length
    sp op oe cp h0 h1 h2 h3 h4 h5

theorem find_xml_tag_loop_next_char :
    ∀ (fuel : Nat) (text tag_name ots ct : List Char) (err : Option XmlError)
      (sp : Nat) (tag : XmlTag) (err2 : Option XmlError),
      find_xml_tag_loop text tag_name ots ct err fuel sp = (some tag, err2) →
      tag.start_pos + ots.length < text.length →
      allowedNextChar (text.getD (tag.start_pos + ots.length) ' ') = true := by
  intro fuel
  induction fuel with
  | zero =>
    intro text tag_name ots ct err sp tag err2 h _
    simp [find_xml_tag_loop] at h
  | succ n ih =>
    intro text tag_name ots ct err sp tag err2 h hlt
    rw [find_xml_tag_loop] at h
    split at h
    case isFalse => simp at h
    cases hf : findSub text ots sp with
    | none => rw [hf] at h; simp at h
    | some open_pos =>
      rw [hf] at h
      dsimp only at h
      split at h
      · exact ih text tag_name ots ct err (open_pos + 1) tag err2 h hlt
      · rename_i hcheck
        cases hg : findSub text ['>'] open_pos with
        | none => rw [hg] at h; simp at h
        | some open_end =>
          rw [hg] at h
          dsimp only at h
          cases he : extract_attribute text tag_name open_pos open_end with
          | error e => rw [he] at h; simp at h
          | ok attr =>
            rw [he] at h
            dsimp only at h
            cases hc : findSub text ct (open_end + 1) with
            | none => rw [hc] at h; simp at h
            | some close_pos =>
              rw [hc] at h
              dsimp only at h
              simp only [Prod.mk.injEq, Option.some.injEq] at h
              obtain ⟨htag, _⟩ := h
              have hsp : tag.start_pos = open_pos := by rw [← htag]
              rw [hsp] at hlt ⊢
              by_contra hme
              exact hcheck ⟨hlt, by simpa using hme⟩

theorem argsDumpSpec_branch (pf : Bool) (mk jdm : List Char)
    (path : List (List Char)) (found : Bool) (text : List Char) :
    ((if pf ∧ ¬ mk.isEmpty then
       match findSub text jdm 0 with
       | some idx =>
         Except.ok
           (Json.str (if text.take idx = ['"'] then [] else text.take idx),
            path, true)
       | none =>
         Except.ok (Json.str (if text = ['"'] then [] else text), path, found)
     else Except.ok (Json.str text, path, found)) :
       Except Unit (Json × List (List Char) × Bool)) =
    Except.ok (Json.str (argsDumpSpec pf mk jdm text).1, path,
      found || (argsDumpSpec pf mk jdm text).2) := by
  unfold argsDumpSpec
  by_cases hp : pf = true ∧ ¬ mk.isEmpty = true
  · simp only [if_pos hp]
    cases hf : findSub text jdm 0 with
    | some idx => simp [hf]
    | none => simp [hf]
  · simp only [if_neg hp]
    simp

theorem tnc_add_content (c : List Char) (s : ParserState) :
    toolNamesNonEmpty (add_content c s) = toolNamesNonEmpty s := rfl

theorem tnc_add_tool_call (n i a : List Char) (s : ParserState)
    (h : toolNamesNonEmpty s = true) :
    toolNamesNonEmpty (add_tool_call n i a s).2 = true := by
  unfold add_tool_call
  by_cases hn : n.isEmpty
  · simpa [hn]
  · simp [hn, toolNamesNonEmpty] at h ⊢
    exact ⟨h, by simpa [List.isEmpty_iff] using hn⟩

theorem tnc_add_tool_call_j (j : Json) (s : ParserState)
    (h : toolNamesNonEmpty s = true) :
    toolNamesNonEmpty (add_tool_call_j j s).2 = true := by
  unfold add_tool_call_j
  cases jFieldString j "name".data with
  | error e => simpa
  | ok nm =>
    cases jFieldString j "id".data with
    | error e => simpa
    | ok idv =>
      cases jFieldString j "arguments".data with
      | error e => simpa
      | ok av => exact tnc_add_tool_call nm idv av s h

theorem tnc_add_tool_calls (arr : List Json) (s : ParserState)
    (h : toolNamesNonEmpty s = true) :
    toolNamesNonEmpty (add_tool_calls arr s).2 = true := by
  induction arr generalizing s with
  | nil => simpa [add_tool_calls]
  | cons item rest ih =>
    have hj := tnc_add_tool_call_j item s h
    rcases hr : add_tool_call_j item s with ⟨res, s2⟩
    rw [hr] at hj
    unfold add_tool_calls
    rw [hr]
    cases res with
    | error e => simpa using hj
    | ok b =>
      cases b
      · simpa using hj
      · exact ih s2 hj

theorem tnc_parse_core : ∀ jp fp content tools s, toolNamesNonEmpty s = true →
    toolNamesNonEmpty (parse_qwen3_xml_tool_call_core jp fp content tools s).2.1
      = true := by
  intro jp fp content tools s h
  have hac : ∀ c st, toolNamesNonEmpty (add_content c st) = toolNamesNonEmpty st :=
    fun _ _ => rfl
  unfold parse_qwen3_xml_tool_call_core
  repeat' split
  all_goals first
    | exact h
    | exact tnc_add_tool_call _ _ _ _ h
    | (simp only []
       repeat' split
       all_goals first
         | exact h
         | exact tnc_add_tool_call _ _ _ _ h)

theorem tnc_applyOp (op : ParserOp) (s : ParserState)
    (h : toolNamesNonEmpty s = true) :
    toolNamesNonEmpty (applyOp op s) = true := by
  cases op with
  | opAddContent c => exact h
  | opAddReasoningContent c => exact h
  | opAddToolCall n i a => exact tnc_add_tool_call n i a s h
  | opAddToolCallJ j => exact tnc_add_tool_call_j j s h
  | opAddToolCalls arr => exact tnc_add_tool_calls arr s h
  | opClearTools => simp [applyOp, clear_tools, toolNamesNonEmpty]
  | opParseQwen3 jp fp content tools =>
    have := tnc_parse_core jp fp content tools s h
    simpa [applyOp, parse_qwen3_xml_tool_call, toolNamesNonEmpty] using this

theorem c1Text_len (n : Nat) : (c1Text n).length = n * 26 := by
  induction n with
  | zero => rfl
  | succ m ih =>
    unfold c1Text at ih ⊢
    rw [List.replicate_succ, List.flatten_cons, List.length_append, ih]
    simp [c1Block]
    omega

theorem c1Text_split (k n : Nat) (hk : k < n) :
    c1Text n = c1Text k ++ (c1Block ++ c1Text (n - k - 1)) := by
  unfold c1Text
  rw [show n = k + (1 + (n - k - 1)) from by omega]
  rw [List.replicate_add, List.flatten_append, List.replicate_add]
  rw [List.flatten_append]
  congr 1
  simp

theorem c1_base_open (rest : List Char) :
    findSub (c1Block ++ rest) ('<' :: "parameter".data) 0 = some 0 :=
  findSub_append_stable rest (by decide)

theorem c1_base_gt (rest : List Char) :
    findSub (c1Block ++ rest) ['>'] 0 = some 12 :=
  findSub_append_stable rest (by decide)

theorem c1_base_eq (rest : List Char) :
    findSub (c1Block ++ rest) ['='] 10 = some 10 :=
  findSub_append_stable rest (by decide)

theorem c1_base_close (rest : List Char) :
    findSub (c1Block ++ rest) ('<' :: '/' :: ("parameter".data ++ ['>'])) 13 =
      some 14 :=
  findSub_append_stable rest (by decide)

theorem c1_getD10 (rest : List Char) : (c1Block ++ rest).getD 10 ' ' = '=' := by
  rw [List.getD_append _ _ _ _ (by decide)]
  decide

theorem c1_getD11 (rest : List Char) : (c1Block ++ rest).getD 11 ' ' = 'a' := by
  rw [List.getD_append _ _ _ _ (by decide)]
  decide

theorem c1_skipWs (rest : List Char) : skipWs (c1Block ++ rest) 11 12 = 11 := by
  unfold skipWs
  rw [show (12 - 11 : Nat) = 1 from rfl]
  unfold skipWsAux
  rw [c1_getD11 rest]
  simp [isspaceB]

theorem c1_trimEnd (rest : List Char) :
    trimEndIdx (c1Block ++ rest) 11 12 = 12 := by
  unfold trimEndIdx
  rw [show (12 - 11 : Nat) = 1 from rfl]
  unfold trimEndAux
  rw [show (12 - 1 : Nat) = 11 from rfl, c1_getD11 rest]
  simp [isspaceB]

theorem c1_slice_attr (rest : List Char) :
    ((c1Block ++ rest).drop 11).take 1 = ['a'] := by
  rw [List.drop_append_of_le_length (by decide)]
  rw [show c1Block.drop 11 = 'a' :: ('>' :: 'x' :: "</parameter>".data) from rfl]
  rfl

theorem c1_slice_content (rest : List Char) :
    ((c1Block ++ rest).drop 13).take 1 = ['x'] := by
  rw [List.drop_append_of_le_length (by decide)]
  rw [show c1Block.drop 13 = 'x' :: "</parameter>".data from rfl]
  rfl

theorem c1_extract_at (P R : List Char) :
    extract_attribute (P ++ (c1Block ++ R)) "parameter".data P.length
      (P.length + 12) = Except.ok ['a'] := by
  have hsk : skipWs (P ++ (c1Block ++ R)) (P.length + 11) (P.length + 12) =
      P.length + 11 := by
    rw [skipWs_shift P (c1Block ++ R) 11 12, c1_skipWs R]
  have hgd : (P ++ (c1Block ++ R)).getD (P.length + 11) ' ' = 'a' := by
    rw [List.getD_append_right _ _ _ _ (by omega)]
    rw [show P.length + 11 - P.length = 11 from by omega]
    exact c1_getD11 R
  have htr : trimEndIdx (P ++ (c1Block ++ R)) (P.length + 11) (P.length + 12) =
      P.length + 12 := by
    rw [trimEndIdx_shift P (c1Block ++ R) 11 12, c1_trimEnd R]
  have heq : findSub (P ++ (c1Block ++ R)) ['=']
      (P.length + 1 + ("parameter".data).length) = some (P.length + 10) := by
    rw [show P.length + 1 + ("parameter".data).length = P.length + 10 from by
      simp]
    rw [findSub_shift P (c1Block ++ R) ['='] 10, c1_base_eq R]
    simp [Nat.add_comm]
  have h := extract_attribute_unquoted_eval (P ++ (c1Block ++ R))
    "parameter".data P.length (P.length + 12) (P.length + 10)
    (by simp) heq (by omega)
    (by rw [show P.length + 10 + 1 = P.length + 11 from by omega, hsk]; omega)
    (by rw [show P.length + 10 + 1 = P.length + 11 from by omega, hsk, hgd]
        decide)
    (by rw [show P.length + 10 + 1 = P.length + 11 from by omega, hsk, htr]
        omega)
    (by rw [show P.length + 10 + 1 = P.length + 11 from by omega, hsk, htr]
        simp [MAX_ATTRIBUTE_LENGTH])
  rw [show P.length + 10 + 1 = P.length + 11 from by omega, hsk, htr] at h
  rw [h]
  rw [show P.length + 12 - (P.length + 11) = 1 from by omega]
  rw [List.drop_append]
  rw [c1_slice_attr R]

theorem c1_find_at_offset (P R : List Char) (err : Option XmlError)
    (hsz : ¬ (P ++ (c1Block ++ R)).length > MAX_INPUT_SIZE) :
    find_xml_tag (P ++ (c1Block ++ R)) "parameter".data P.length err =
      (some { name := "parameter".data, attr := ['a'], content := ['x'],
              start_pos := P.length, end_pos := P.length + 26 }, err) := by
  have h0 : P.length < (P ++ (c1Block ++ R)).length := by
    simp [c1Block]
  have h1 : findSub (P ++ (c1Block ++ R)) ('<' :: "parameter".data) P.length =
      some P.length := by
    have h := findSub_shift P (c1Block ++ R) ('<' :: "parameter".data) 0
    rw [c1_base_open R] at h
    simpa using h
  have hgd : (P ++ (c1Block ++ R)).getD (P.length + 10) ' ' = '=' := by
    rw [List.getD_append_right _ _ _ _ (by omega)]
    rw [show P.length + 10 - P.length = 10 from by omega]
    exact c1_getD10 R
  have h2 : ¬ (P.length + ('<' :: "parameter".data).length <
      (P ++ (c1Block ++ R)).length ∧
      ¬ allowedNextChar ((P ++ (c1Block ++ R)).getD
        (P.length + ('<' :: "parameter".data).length) ' ') = true) := by
    rintro ⟨-, hno⟩
    apply hno
    rw [show P.length + ('<' :: "parameter".data).length = P.length + 10 from by
      simp]
    rw [hgd]
    decide
  have h3 : findSub (P ++ (c1Block ++ R)) ['>'] P.length =
      some (P.length + 12) := by
    have h := findSub_shift P (c1Block ++ R) ['>'] 0
    rw [c1_base_gt R] at h
    simpa [Nat.add_comm] using h
  have h5 : findSub (P ++ (c1Block ++ R))
      ('<' :: '/' :: ("parameter".data ++ ['>'])) (P.length + 12 + 1) =
      some (P.length + 14) := by
    have h := findSub_shift P (c1Block ++ R)
      ('<' :: '/' :: ("parameter".data ++ ['>'])) 13
    rw [c1_base_close R] at h
    rw [show P.length + 12 + 1 = P.length + 13 from by omega]
    simpa [Nat.add_comm] using h
  have heval := find_xml_tag_eval (P ++ (c1Block ++ R)) "parameter".data ['a']
    err P.length P.length (P.length + 12) (P.length + 14) hsz (by decide) h0 h1
    h2 h3 (c1_extract_at P R) h5
  rw [heval]
  have hcontent : (if P.length + 14 - (P.length + 12 + 1) > 0 then
      ((P ++ (c1Block ++ R)).drop (P.length + 12 + 1)).take
        (P.length + 14 - (P.length + 12 + 1))
    else []) = ['x'] := by
    rw [show P.length + 14 - (P.length + 12 + 1) = 1 from by omega]
    rw [if_pos (by omega)]
    rw [show P.length + 12 + 1 = P.length + 13 from by omega]
    rw [List.drop_append]
    exact c1_slice_content R
  rw [hcontent]
  have hend : P.length + 14 +
      ('<' :: '/' :: ("parameter".data ++ ['>'])).length = P.length + 26 := by
    simp
  rw [hend]

theorem c1_find_at (k n : Nat) (hk : k < n) (hsz : n * 26 ≤ MAX_INPUT_SIZE)
    (err : Option XmlError) :
    find_xml_tag (c1Text n) "parameter".data (k * 26) err =
      (some (c1TagAt k), err) := by
  have hsplit := c1Text_split k n hk
  have hPlen := c1Text_len k
  unfold c1TagAt
  rw [hsplit, ← hPlen]
  apply c1_find_at_offset
  rw [← hsplit]
  rw [c1Text_len n]
  simp only [MAX_INPUT_SIZE] at hsz ⊢
  omega

theorem c1_find_all_loop (n : Nat) (hn : n ≤ 100) (hsz : n * 26 ≤ MAX_INPUT_SIZE) :
    ∀ (m k : Nat) (acc : List XmlTag) (err : Option XmlError), k + m = n →
      find_all_xml_tags_loop (c1Text n) "parameter".data (100 - k) (k * 26) k
        acc err =
      (acc ++ (List.range m).map (fun i => c1TagAt (k + i)), n * 26, n, err) := by
  intro m
  induction m with
  | zero =>
    intro k acc err hkm
    have hk : k = n := by omega
    subst hk
    by_cases h100 : k = 100
    · subst h100
      rw [show (100 - 100 : Nat) = 0 from rfl]
      simp [find_all_xml_tags_loop]
    · rw [show (100 - k : Nat) = (100 - k - 1) + 1 from by omega]
      rw [find_all_xml_tags_loop]
      rw [if_neg (by rw [c1Text_len k]; omega)]
      simp
  | succ m ih =>
    intro k acc err hkm
    have hklt : k < n := by omega
    rw [show (100 - k : Nat) = (100 - (k + 1)) + 1 from by omega]
    rw [find_all_xml_tags_loop]
    rw [if_pos (show k * 26 < (c1Text n).length ∧ k < MAX_PARAMETER_COUNT by
      rw [c1Text_len n]
      simp only [MAX_PARAMETER_COUNT]
      omega)]
    rw [c1_find_at k n hklt hsz err]
    dsimp only
    have hend : (c1TagAt k).end_pos = (k + 1) * 26 := by
      simp [c1TagAt]; omega
    rw [hend]
    rw [ih (k + 1) (acc ++ [c1TagAt k]) err (by omega)]
    rw [List.range_succ_eq_map]
    simp only [List.map_cons, List.map_map, Nat.add_zero]
    rw [List.append_cons]
    have hfeq : ((fun i => c1TagAt (k + i)) ∘ Nat.succ) =
        (fun i => c1TagAt (k + 1 + i)) := by
      funext i
      simp only [Function.comp]
      congr 1
      omega
    rw [hfeq]
    simp

/-- Evaluation of `find_all_xml_tags` from its loop when the tag count
reaches the maximum: the error slot receives `TOO_MANY_PARAMETERS`. -/
theorem find_all_xml_tags_eval_over (text tag_name : List Char)
    (err : Option XmlError) (tags : List XmlTag) (p n : Nat)
    (e2 : Option XmlError)
    (h : find_all_xml_tags_loop text tag_name MAX_PARAMETER_COUNT 0 0 [] err =
      (tags, p, n, e2))
    (hn : MAX_PARAMETER_COUNT ≤ n) :
    find_all_xml_tags text tag_name err =
      (tags, some { etype := XmlParseErrorType.TOO_MANY_PARAMETERS,
                    position := p,
                    context := (text.drop p).take (min (text.length - p) 100) }) := by
  unfold find_all_xml_tags
  rw [h]
  dsimp only
  rw [if_pos hn]

/-- Evaluation of `find_all_xml_tags` from its loop when the tag count stays
below the maximum: the loop result is returned unchanged. -/
theorem find_all_xml_tags_eval_under (text tag_name : List Char)
    (err : Option XmlError) (tags : List XmlTag) (p n : Nat)
    (e2 : Option XmlError)
    (h : find_all_xml_tags_loop text tag_name MAX_PARAMETER_COUNT 0 0 [] err =
      (tags, p, n, e2))
    (hn : n < MAX_PARAMETER_COUNT) :
    find_all_xml_tags text tag_name err = (tags, e2) := by
  unfold find_all_xml_tags
  rw [h]
  dsimp only
  rw [if_neg (by omega)]

/- Claim theorems. -/

/-- C1: the claim that 100 well-formed `<parameter=KEY>` tags are accepted
without error is contradicted by the code: `find_all_xml_tags` finds all 100
well-formed tags of an input made of exactly 100 parameter blocks but then
writes `TOO_MANY_PARAMETERS` into the error slot (the `tag_count >=
MAX_PARAMETER_COUNT` check fires at exactly 100), which makes
`parse_qwen3_xml_tool_call` return false; 99 tags are accepted without
error.  The spec and the claim state the boundary as 100 accepted / 101
rejected, matching the constant's own documentation, so this is recorded as
a code bug. -/
theorem c1_hundred_params_off_by_one :
    (find_all_xml_tags (c1Text 100) "parameter".data none).1 =
      (List.range 100).map c1TagAt ∧
    ((find_all_xml_tags (c1Text 100) "parameter".data none).2).map
        XmlError.etype = some XmlParseErrorType.TOO_MANY_PARAMETERS ∧
    (find_all_xml_tags (c1Text 99) "parameter".data none).1 =
      (List.range 99).map c1TagAt ∧
    (find_all_xml_tags (c1Text 99) "parameter".data none).2 = none := by
  have h100 : find_all_xml_tags_loop (c1Text 100) "parameter".data
      MAX_PARAMETER_COUNT 0 0 [] none =
      ((List.range 100).map c1TagAt, 2600, 100, none) := by
    have h := c1_find_all_loop 100 (Nat.le_refl 100)
      (by simp [MAX_INPUT_SIZE]) 100 0 [] none (by omega)
    simpa [MAX_PARAMETER_COUNT] using h
  have h99 : find_all_xml_tags_loop (c1Text 99) "parameter".data
      MAX_PARAMETER_COUNT 0 0 [] none =
      ((List.range 99).map c1TagAt, 2574, 99, none) := by
    have h := c1_find_all_loop 99 (by omega)
      (by simp [MAX_INPUT_SIZE]) 99 0 [] none (by omega)
    simpa [MAX_PARAMETER_COUNT] using h
  have e100 := find_all_xml_tags_eval_over (c1Text 100) "parameter".data none
    _ _ _ _ h100 (by simp [MAX_PARAMETER_COUNT])
  have e99 := find_all_xml_tags_eval_under (c1Text 99) "parameter".data none
    _ _ _ _ h99 (by simp [MAX_PARAMETER_COUNT])
  refine ⟨?_, ?_, ?_, ?_⟩
  · rw [e100]
  · rw [e100]
    rfl
  · rw [e99]
  · rw [e99]

/-- C2: the claim that every `try_*` operation leaves `pos` unchanged when it
returns false or None is false: a regex whose matcher reports a Partial match
on a non-partial parse makes `try_find_regex` return None with the cursor
moved to the end of the partial match. -/
theorem c2_cex :
    (try_find_regex c2Regex none false c2State).1 = Except.ok none ∧
    (try_find_regex c2Regex none false c2State).2.pos = 2 ∧
    c2State.pos = 0 := by
  refine ⟨rfl, rfl, rfl⟩

/-- C2 (amended): `try_consume_literal`, `try_find_literal`,
`try_consume_regex` and `try_consume_json` leave `pos` unchanged whenever
they return false or None, and `try_find_regex` leaves `pos` unchanged when
the matcher reports no match at all; when the matcher reports a Partial
match under `is_partial = false`, `try_find_regex` returns None with `pos`
already advanced (see the counterexample). -/
theorem c2_amended :
    (∀ lit s, (try_consume_literal lit s).1 = false →
       (try_consume_literal lit s).2.pos = s.pos) ∧
    (∀ lit s, (try_find_literal lit s).1 = none →
       (try_find_literal lit s).2.pos = s.pos) ∧
    (∀ re s, (try_consume_regex re s).1 = Except.ok none →
       (try_consume_regex re s).2.pos = s.pos) ∧
    (∀ cjp s, (try_consume_json cjp s).1 = Except.ok none →
       (try_consume_json cjp s).2.pos = s.pos) ∧
    (∀ re fromPos ap s,
       (re.search s.input (fromPos.getD s.pos)).mtype = CommonRegexMatchType.NONE_M →
       (try_find_regex re fromPos ap s).2.pos = s.pos) := by
  refine ⟨?_, ?_, ?_, ?_, ?_⟩
  · intro lit s h
    cases hf : consume_literal_loop s.input lit s.pos with
    | some p => simp [try_consume_literal, hf] at h
    | none => simp [try_consume_literal, hf]
  · intro lit s h
    cases hf : findSub s.input lit s.pos with
    | some idx => simp [try_find_literal, hf] at h
    | none =>
      by_cases hp : s.isPartialFlag
      · cases hs : string_find_partial_stop s.input lit with
        | some idx =>
          by_cases hge : idx ≥ s.pos
          · simp [try_find_literal, hf, hp, hs, hge] at h
          · simp [try_find_literal, move_to, hf, hp, hs, hge]
        | none => simp [try_find_literal, hf, hp, hs]
      · simp [try_find_literal, hf, hp]
  · intro re s h
    unfold try_consume_regex at h ⊢
    cases hm : (re.search s.input s.pos).mtype with
    | NONE_M => simp [hm]
    | PARTIAL_M =>
      by_cases hp : s.isPartialFlag <;> simp [hm, hp] at h ⊢
    | FULL_M =>
      simp only [hm] at h ⊢
      by_cases hb : ((re.search s.input s.pos).groups.head?.getD
          { rb := 0, re := 0 }).rb = s.pos
      · simp [hb] at h
      · simp [hb]
  · intro cjp s h
    cases hc : cjp s.input s.pos s.healing_marker with
    | none => simp [try_consume_json, hc]
    | some r =>
      by_cases hm : r.1.healing.marker.isEmpty
      · simp [try_consume_json, hc, hm] at h
      · by_cases hp : s.isPartialFlag <;> simp [try_consume_json, hc, hm, hp] at h
  · intro re fromPos ap s h
    unfold try_find_regex
    simp only [h]

/-- C2 witness: the amended theorem applied at concrete failing lookups. -/
theorem c2_amended_witness :
    (try_consume_literal "zz".data c2wState).2.pos = c2wState.pos ∧
    (try_find_literal "zz".data c2wState).2.pos = c2wState.pos ∧
    (try_consume_regex c2wRegex c2wState).2.pos = c2wState.pos ∧
    (try_consume_json (fun _ _ _ => none) c2wState).2.pos = c2wState.pos ∧
    (try_find_regex c2wRegex none false c2wState).2.pos = c2wState.pos := by
  refine ⟨c2_amended.1 _ _ rfl, c2_amended.2.1 _ _ rfl,
    c2_amended.2.2.1 _ _ rfl, c2_amended.2.2.2.1 _ _ rfl,
    c2_amended.2.2.2.2 c2wRegex none false c2wState rfl⟩

/-- C3: the all-or-nothing part of the claim is false: on a batch whose
second element has an empty name, `add_tool_calls` returns false but the
first element has already been appended, so the tool-call list is not left
unchanged. -/
theorem c3_cex :
    (add_tool_calls [c3Item1, c3Item2] c3State).1 = Except.ok false ∧
    (add_tool_calls [c3Item1, c3Item2] c3State).2.tool_calls =
      [{ name := "a".data, id := [], arguments := [] }] ∧
    c3State.tool_calls = [] := by
  refine ⟨rfl, rfl, rfl⟩

/-- C3 (amended): for arrays whose elements carry only string (or absent)
`name`/`id`/`arguments` fields, `add_tool_calls` returns true iff every
element has a non-empty name, and it appends exactly the prefix of elements
before the first empty-or-absent name (all of them when the batch
succeeds) — a prefix commit, not an all-or-nothing batch. -/
theorem c3_amended : ∀ (arr : List Json) (s : ParserState),
    (∀ j ∈ arr, exOk (jFieldString j "name".data) ∧
        exOk (jFieldString j "id".data) ∧
        exOk (jFieldString j "arguments".data)) →
    add_tool_calls arr s =
      (Except.ok (arr.all goodName),
       { s with tool_calls :=
           s.tool_calls ++ (arr.takeWhile goodName).map mkToolCallOf }) := by
  intro arr
  induction arr with
  | nil => intro s h; simp [add_tool_calls]
  | cons item rest ih =>
    intro s h
    obtain ⟨hn, hi, ha⟩ := h item (List.mem_cons_self _ _)
    obtain ⟨nm, hnm⟩ : ∃ v, jFieldString item "name".data = Except.ok v := by
      cases hv : jFieldString item "name".data with
      | ok v => exact ⟨v, rfl⟩
      | error e => simp [exOk, hv] at hn
    obtain ⟨idv, hidv⟩ : ∃ v, jFieldString item "id".data = Except.ok v := by
      cases hv : jFieldString item "id".data with
      | ok v => exact ⟨v, rfl⟩
      | error e => simp [exOk, hv] at hi
    obtain ⟨av, hav⟩ : ∃ v, jFieldString item "arguments".data = Except.ok v := by
      cases hv : jFieldString item "arguments".data with
      | ok v => exact ⟨v, rfl⟩
      | error e => simp [exOk, hv] at ha
    by_cases hne : nm.isEmpty
    · have hg : goodName item = false := by
        simp [goodName, exGetD, hnm, hne]
      simp [add_tool_calls, add_tool_call_j, hnm, hidv, hav, add_tool_call, hne,
        hg]
    · have hg : goodName item = true := by
        simp [goodName, exGetD, hnm, hne]
      have hrest := ih ({ s with tool_calls := s.tool_calls ++
        [{ name := nm, id := idv, arguments := av }] })
        (fun j hj => h j (List.mem_cons_of_mem _ hj))
      simp [add_tool_calls, add_tool_call_j, hnm, hidv, hav, add_tool_call, hne,
        hg, hrest, mkToolCallOf, exGetD]

/-- C3 witness: the amended theorem applied to the two-element batch of the
counterexample. -/
theorem c3_amended_witness :
    add_tool_calls [c3Item1, c3Item2] c3State =
      (Except.ok false,
       { c3State with tool_calls := [mkToolCallOf c3Item1] }) := by
  have := c3_amended [c3Item1, c3Item2] c3State (by decide)
  simpa using this

/-- C4: the identity claim is false: a declared-string parameter whose VALUE
is `" x"` comes back as `"x"` (the value is trimmed before JSON-escaping),
and a declared-string parameter whose VALUE is `null` comes back as JSON
null rather than the string `"null"`. -/
theorem c4_cex :
    (parse_qwen3_xml_tool_call c4jp c4fp c4Input c4Tools c4State).1 = true ∧
    (parse_qwen3_xml_tool_call c4jp c4fp c4Input c4Tools c4State).2.tool_calls =
      [{ name := "f".data, id := [],
         arguments := dumpJson (Json.obj [("q".data, Json.str "x".data)]) }] ∧
    "x".data ≠ " x".data ∧
    (parse_qwen3_xml_tool_call c4jp c4fp c4InputNull c4Tools c4State).2.tool_calls =
      [{ name := "f".data, id := [],
         arguments := dumpJson (Json.obj [("q".data, Json.null)]) }] ∧
    Json.null ≠ Json.str "null".data := by
  refine ⟨rfl, rfl, by decide, rfl, fun h => Json.noConfusion h⟩

/-- C4 (amended): for a schema that declares KEY with a string type, the
coercion composed with JSON deserialization maps VALUE to the string
`trim_whitespace VALUE`, except that a trimmed value equal to `null` maps to
JSON null. -/
theorem c4_amended : ∀ (jp : List Char → Option Json)
    (fp : List Char → Option (List Char))
    (param_value param_name : List Char) (param_config : Json)
    (func_name t : List Char),
    jContains param_config param_name = true →
    jLookup (jGetD param_config param_name) "type".data = some (Json.str t) →
    (t = "string".data ∨ t = "str".data ∨ t = "text".data) →
    convert_qwen3_param_value jp fp param_value param_name param_config func_name =
      Except.ok (if trim_whitespace param_value = "null".data then Json.null
        else Json.str (trim_whitespace param_value)) := by
  intro jp fp param_value param_name param_config func_name t h1 h2 ht
  have hcont : jContains (jGetD param_config param_name) "type".data = true := by
    cases hj : jGetD param_config param_name with
    | obj kvs =>
      rw [hj] at h2
      simp only [jLookup] at h2
      cases hf : kvs.find? (fun p => p.1 = "type".data) with
      | some p => simp [jContains, hf]
      | none => rw [hf] at h2; simp at h2
    | null => rw [hj] at h2; simp [jLookup] at h2
    | boolVal b => rw [hj] at h2; simp [jLookup] at h2
    | numLit s => rw [hj] at h2; simp [jLookup] at h2
    | str s => rw [hj] at h2; simp [jLookup] at h2
    | arr xs => rw [hj] at h2; simp [jLookup] at h2
  by_cases hnull : trim_whitespace param_value = "null".data
  · simp [convert_qwen3_param_value, hnull]
  · rcases ht with h | h | h <;>
      simp [convert_qwen3_param_value, hnull, h1, hcont, h2, h]

/-- C4 witness: the amended theorem at a concrete schema and value. -/
theorem c4_amended_witness :
    convert_qwen3_param_value c4jp c4fp " x".data "q".data
        (Json.obj [("q".data, Json.obj [("type".data, Json.str "string".data)])])
        "f".data = Except.ok (Json.str "x".data) := by
  have h := c4_amended c4jp c4fp " x".data "q".data
    (Json.obj [("q".data, Json.obj [("type".data, Json.str "string".data)])])
    "f".data "string".data rfl rfl (Or.inl rfl)
  exact h.trans (by rfl)

/-- C5: at every subtree whose path is in `args_paths`, the dumper walk
serializes the subtree and applies exactly the spec-described truncation
(truncate at the first occurrence of `json_dump_marker` when partial and
healed; a lone `"` becomes the empty string), reporting whether the marker
was found; and whenever the walk runs (no fast path), the value returned by
`try_consume_json_with_dumped_args` pairs the cleaned value with the walk's
`found_healing_marker` flag as `is_partial_result`. -/
theorem c5_dumped_args :
    (∀ (ctx : DumpCtx) (j : Json) (path : List (List Char)) (found : Bool),
       path ∈ ctx.args_paths →
       rhd ctx j path found =
         Except.ok
           (Json.str (argsDumpSpec ctx.isPartialFlag ctx.marker
              ctx.json_dump_marker (dumpJson j)).1,
            path,
            found || (argsDumpSpec ctx.isPartialFlag ctx.marker
              ctx.json_dump_marker (dumpJson j)).2)) ∧
    (∀ (cjp : List Char → Nat → List Char → Option (CommonJson × Nat))
       (args_paths content_paths : List (List (List Char)))
       (s s1 : ParserState) (pjson : CommonJson) (cleaned : Json)
       (p2 : List (List Char)) (found : Bool),
       try_consume_json cjp s = (Except.ok (some pjson), s1) →
       ¬ (pjson.healing.marker.isEmpty ∧ args_paths.isEmpty) →
       ¬ (pjson.healing.marker.isEmpty ∧ [] ∈ args_paths) →
       rhd { args_paths := args_paths, content_paths := content_paths,
             isPartialFlag := s.isPartialFlag, healing_marker := s.healing_marker,
             marker := pjson.healing.marker,
             json_dump_marker := pjson.healing.json_dump_marker }
           pjson.jvalue [] false = Except.ok (cleaned, p2, found) →
       try_consume_json_with_dumped_args cjp args_paths content_paths s =
         (DumpedArgsOutcome.outOk cleaned found, s1)) := by
  constructor
  · intro ctx j path found hpath
    cases j <;>
      (rw [rhd] <;> try (intro _ h; exact Json.noConfusion h)
       rw [if_pos hpath]
       exact argsDumpSpec_branch ctx.isPartialFlag ctx.marker
         ctx.json_dump_marker path found (dumpJson _))
  · intro cjp args_paths content_paths s s1 pjson cleaned p2 found hcons hf1 hf2
      hwalk
    unfold try_consume_json_with_dumped_args
    rw [hcons]
    simp only [if_neg hf1, if_neg hf2]
    rw [hwalk]

/-- C5 witness: the walk theorem applied at a healed string under the root
arguments path, and the outer function applied at a concrete healed
object. -/
theorem c5_witness :
    rhd c5ctx (Json.str "abM".data) [] false =
      Except.ok (Json.str ('"' :: 'a' :: 'b' :: []), [], true) ∧
    try_consume_json_with_dumped_args c5cjp [["a".data]] [] c5State =
      (DumpedArgsOutcome.outOk (Json.obj [("a".data, Json.str "x".data)]) false,
       { c5State with pos := 4 }) := by
  constructor
  · have h := c5_dumped_args.1 c5ctx (Json.str "abM".data) [] false (by simp [c5ctx])
    exact h.trans (by rfl)
  · exact c5_dumped_args.2 c5cjp [["a".data]] [] c5State _ _ _ _ _ rfl
      (by simp) (by simp) rfl

/-- C6: when the partial-JSON parser succeeds with a non-empty healing
marker, `try_consume_json` raises `Partial("JSON")` if the parse is not
partial, and returns the healed value if it is. -/
theorem c6_healing_complete_raises : ∀ (cjp : List Char → Nat → List Char →
      Option (CommonJson × Nat)) (s : ParserState) (cj : CommonJson) (newPos : Nat),
    cjp s.input s.pos s.healing_marker = some (cj, newPos) →
    cj.healing.marker ≠ [] →
    (s.isPartialFlag = false →
      try_consume_json cjp s =
        (Except.error { tok := "JSON".data }, { s with pos := newPos })) ∧
    (s.isPartialFlag = true →
      try_consume_json cjp s =
        (Except.ok (some cj), { s with pos := newPos })) := by
  intro cjp s cj newPos hc hm
  constructor <;> intro hp <;>
    simp [try_consume_json, hc, hp, List.isEmpty_iff, hm]

/-- C6 witness: both branches of the theorem at a concrete healed parse. -/
theorem c6_witness :
    try_consume_json c6cjp c6StateF =
      (Except.error { tok := "JSON".data }, { c6StateF with pos := 3 }) ∧
    try_consume_json c6cjp c6StateT =
      (Except.ok (some (c6cj "M".data)), { c6StateT with pos := 3 }) := by
  refine ⟨(c6_healing_complete_raises c6cjp c6StateF _ 3 rfl (by decide)).1 rfl,
          (c6_healing_complete_raises c6cjp c6StateT _ 3 rfl (by decide)).2 rfl⟩

/-- C7: after any sequence of parser operations from a fresh parser, every
tool call in the message has a non-empty name; and `add_tool_call` with an
empty name returns false leaving the state unchanged. -/
theorem c7_tool_names_nonempty :
    (∀ (input : List Char) (p : Bool) (hm : List Char) (ops : List ParserOp),
       toolNamesNonEmpty (applyOps ops (mkParser input p hm)) = true) ∧
    (∀ (id arguments : List Char) (s : ParserState),
       add_tool_call [] id arguments s = (false, s)) := by
  constructor
  · intro input p hm ops
    have hgen : ∀ (l : List ParserOp) (s : ParserState),
        toolNamesNonEmpty s = true → toolNamesNonEmpty (applyOps l s) = true := by
      intro l
      induction l with
      | nil => intro s hs; simpa [applyOps] using hs
      | cons op rest ih =>
        intro s hs
        have h1 := tnc_applyOp op s hs
        simpa [applyOps] using ih (applyOp op s) h1
    exact hgen ops (mkParser input p hm) rfl
  · intro id arguments s
    simp [add_tool_call]

/-- C8: `find_xml_tag` never returns a tag whose `"<" + name` occurrence is
followed by a character other than `>`, `=` or whitespace; in particular
searching for tag `tool` inside `<tool_call>...</tool_call>` returns
None. -/
theorem c8_no_prefix_collision :
    (∀ (text tag_name : List Char) (from_pos : Nat) (err err2 : Option XmlError)
       (tag : XmlTag),
       find_xml_tag text tag_name from_pos err = (some tag, err2) →
       tag.start_pos + 1 + tag_name.length < text.length →
       allowedNextChar
         (text.getD (tag.start_pos + 1 + tag_name.length) ' ') = true) ∧
    find_xml_tag "<tool_call>abc</tool_call>".data "tool".data 0 none =
      (none, none) := by
  constructor
  · intro text tag_name from_pos err err2 tag h hlt
    unfold find_xml_tag at h
    split at h
    · simp at h
    split at h
    · simp at h
    split at h
    · simp at h
    have hlen : tag.start_pos + ('<' :: tag_name).length =
        tag.start_pos + 1 + tag_name.length := by
      simp [List.length_cons]; omega
    have := find_xml_tag_loop_next_char (text.length + 1) text tag_name
      ('<' :: tag_name) ('<' :: '/' :: (tag_name ++ ['>'])) err from_pos tag err2
      h (by rw [hlen]; exact hlt)
    rwa [hlen] at this
  · rfl

/-- C8 witness: the theorem at a tag match followed by `=`. -/
theorem c8_witness :
    allowedNextChar (("<p=v>x</p>".data).getD (0 + 1 + ("p".data).length) ' ')
      = true := by
  exact c8_no_prefix_collision.1 "<p=v>x</p>".data "p".data 0 none none
    { name := "p".data, attr := "v".data, content := "x".data,
      start_pos := 0, end_pos := 10 } rfl (by decide)

/-- C9: a parameter whose value coercion throws gets a
`PARAMETER_CONVERSION_FAILED` error recorded in the error slot, its trimmed
raw value stored as a string argument, and processing continues; the
end-to-end parse still appends the tool call and returns true (concrete
second conjunct, where the schema's non-string `type` field makes the
conversion throw). -/
theorem c9_conversion_failure_recoverable :
    (∀ (jp : List Char → Option Json) (fp : List Char → Option (List Char))
       (function_name : List Char) (param_config : Json) (tc_start fn_start : Nat)
       (ptag : XmlTag) (rest : List XmlTag) (args : List (List Char × Json))
       (err : Option XmlError) (cnt : Nat),
       cnt < MAX_PARAMETER_COUNT →
       ptag.attr.isEmpty = false →
       (trim_whitespace ptag.attr).isEmpty = false →
       (trim_whitespace ptag.attr).length ≤ MAX_TAG_NAME_LENGTH →
       convert_qwen3_param_value jp fp ptag.content (trim_whitespace ptag.attr)
           param_config function_name = Except.error () →
       process_parameters jp fp function_name param_config tc_start fn_start
           (ptag :: rest) args err cnt =
         process_parameters jp fp function_name param_config tc_start fn_start
           rest
           (jInsert args (trim_whitespace ptag.attr)
             (Json.str (trim_whitespace ptag.content)))
           (some { etype := XmlParseErrorType.PARAMETER_CONVERSION_FAILED,
                   position := tc_start + fn_start + ptag.start_pos,
                   context := trim_whitespace ptag.attr ++ '=' :: ptag.content })
           (cnt + 1)) ∧
    ((parse_qwen3_xml_tool_call c9jp c4fp c9Input c4Tools c4State).1 = true ∧
     (parse_qwen3_xml_tool_call c9jp c4fp c9Input c4Tools c4State).2.tool_calls =
       [{ name := "f".data, id := [],
          arguments := dumpJson (Json.obj [("q".data, Json.str "v".data)]) }] ∧
     ((parse_qwen3_xml_tool_call c9jp c4fp c9Input c4Tools c4State).2.last_xml_error).map
         XmlError.etype = some XmlParseErrorType.PARAMETER_CONVERSION_FAILED) := by
  constructor
  · intro jp fp function_name param_config tc_start fn_start ptag rest args err
      cnt h1 h2 h3 h4 h5
    rw [process_parameters]
    simp [Nat.not_le.mpr h1, h2, h3, Nat.not_lt.mpr h4, h5]
  · refine ⟨rfl, rfl, rfl⟩

/-- C9 witness: the loop-step equation at a concrete failing parameter. -/
theorem c9_witness :
    process_parameters c4jp c4fp "f".data c9wConfig 0 0 [c9wTag] [] none 0 =
      ([("q".data, Json.str "v".data)],
       some { etype := XmlParseErrorType.PARAMETER_CONVERSION_FAILED,
              position := 0,
              context := "q=v".data }, 1) := by
  have h := (c9_conversion_failure_recoverable.1) c4jp c4fp "f".data c9wConfig
    0 0 c9wTag [] [] none 0 (by decide) (by decide) (by decide) (by decide)
    (by rfl)
  exact h.trans (by rfl)

/-- C10: when an attribute value opens with a quote that is never closed
before the opening tag's `>`, `find_xml_tag`'s attribute extraction yields
the text from the quote character (included) up to the `>`, with no
trailing-whitespace trimming; the concrete conjunct shows the attribute
`"ab ` (quote kept, trailing space kept). -/
theorem c10_unterminated_quote_attr :
    (∀ (text tag_name : List Char) (open_pos open_end eq_pos : Nat),
       open_pos + 1 + tag_name.length < open_end →
       findSub text ['='] (open_pos + 1 + tag_name.length) = some eq_pos →
       eq_pos < open_end →
       skipWs text (eq_pos + 1) open_end < open_end →
       (text.getD (skipWs text (eq_pos + 1) open_end) ' ' = '"' ∨
        text.getD (skipWs text (eq_pos + 1) open_end) ' ' = Char.ofNat 39) →
       (∀ q, findSub text [text.getD (skipWs text (eq_pos + 1) open_end) ' ']
           (skipWs text (eq_pos + 1) open_end + 1) = some q → ¬ q < open_end) →
       open_end - skipWs text (eq_pos + 1) open_end ≤ MAX_ATTRIBUTE_LENGTH →
       extract_attribute text tag_name open_pos open_end =
         Except.ok ((text.drop (skipWs text (eq_pos + 1) open_end)).take
           (open_end - skipWs text (eq_pos + 1) open_end))) ∧
    (find_xml_tag "<f=\"ab >x</f>".data "f".data 0 none).1 =
      some { name := "f".data, attr := '"' :: 'a' :: 'b' :: ' ' :: [],
             content := "x".data, start_pos := 0, end_pos := 13 } := by
  constructor
  · intro text tag_name open_pos open_end eq_pos htcs heq heqlt has hquote hnoq
      hlen
    unfold extract_attribute
    rw [if_pos htcs, heq]
    dsimp only
    rw [if_pos heqlt, if_pos has, if_pos hquote]
    have hbounds :
        (match findSub text [text.getD (skipWs text (eq_pos + 1) open_end) ' ']
            (skipWs text (eq_pos + 1) open_end + 1) with
          | some quote_end =>
            if quote_end < open_end then
              (skipWs text (eq_pos + 1) open_end + 1, quote_end)
            else (skipWs text (eq_pos + 1) open_end, open_end)
          | none => (skipWs text (eq_pos + 1) open_end, open_end)) =
        (skipWs text (eq_pos + 1) open_end, open_end) := by
      cases hq : findSub text [text.getD (skipWs text (eq_pos + 1) open_end) ' ']
          (skipWs text (eq_pos + 1) open_end + 1) with
      | none => rfl
      | some q => simp [hnoq q hq]
    rw [hbounds]
    dsimp only
    rw [if_pos has]
    have hvlen : ((text.drop (skipWs text (eq_pos + 1) open_end)).take
        (open_end - skipWs text (eq_pos + 1) open_end)).length ≤
        MAX_ATTRIBUTE_LENGTH := by
      have := List.length_take_le (open_end - skipWs text (eq_pos + 1) open_end)
        (text.drop (skipWs text (eq_pos + 1) open_end))
      omega
    rw [if_pos hvlen]
  · rfl

/-- C10 witness: the theorem at the concrete unterminated-quote input. -/
theorem c10_witness :
    extract_attribute "<f=\"ab >x</f>".data "f".data 0 7 =
      Except.ok ('"' :: 'a' :: 'b' :: ' ' :: []) := by
  have h := c10_unterminated_quote_attr.1 "<f=\"ab >x</f>".data "f".data 0 7 2
    (by decide) (by decide) (by decide) (by decide) (by decide)
    (fun q hq => by
      have : findSub "<f=\"ab >x</f>".data
          [("<f=\"ab >x</f>".data).getD (skipWs "<f=\"ab >x</f>".data 3 7) ' ']
          (skipWs "<f=\"ab >x</f>".data 3 7 + 1) = none := by decide
      rw [this] at hq
      exact Option.noConfusion hq)
    (by decide)
  exact h.trans (by rfl)
